import Mathlib

/-!
Verification development for the message-routing core of the `telegram-bot-deep`
Telegram bot (TypeScript sources: `src/agent-manager.ts`, `src/islamic-agents.ts`,
`src/index.ts`).

JavaScript strings are modelled as `List Char` (`Str`).  All string constants in
the program are ASCII or single-code-unit BMP characters, so JS `.length`,
`.slice`, `.lastIndexOf` positions agree with list positions.  The DeepSeek
chat-completion boundary is modelled as an oracle
`Oracle : String → String → Except Unit String` mapping (system prompt, user
message) to either the completion text (possibly empty, as
`data.choices[0]?.message?.content || ''` may produce `''`) or a transport
error.  JS numbers are modelled as extended rationals (`JNum`: NaN, signed
infinity, or an exact rational); the only numeric operations performed by the
program on parsed floats are comparisons against the thresholds 0.7 / 0.3,
which are insensitive to binary rounding for the inputs of interest.
-/

namespace TelegramBot

/-- JS strings as lists of characters. -/
abbrev Str := List Char

/-- JS regex `\s` / `String.prototype.trim` whitespace class, restricted to the
ASCII whitespace characters (the only whitespace occurring in this code base). -/
def isWs (c : Char) : Bool :=
  c = ' ' || c = '\t' || c = '\n' || c = '\r' || c = '\x0B' || c = '\x0C'

/-- JS `String.prototype.trim`: remove leading and trailing whitespace. -/
def jsTrim (s : Str) : Str :=
  ((s.dropWhile isWs).reverse.dropWhile isWs).reverse

/-- Scanner for JS `String.prototype.lastIndexOf(sub, lim)`: one left-to-right
pass recording the last position `i ≤ lim` at which `sub` occurs. -/
def lastIdxGo (sub : Str) (lim : Nat) : Str → Nat → Option Nat → Option Nat
  | [], _, best => best
  | s@(_ :: rest), i, best =>
      lastIdxGo sub lim rest (i + 1) (if i ≤ lim && sub.isPrefixOf s then some i else best)

/-- JS `s.lastIndexOf(sub, lim)` (`none` plays the role of `-1`). -/
def jsLastIndexOf (s sub : Str) (lim : Nat) : Option Nat :=
  lastIdxGo sub lim s 0 none

/-- JS lowercasing for the ASCII range (`String.prototype.toLowerCase`; all
alias/pattern constants in the program are ASCII). -/
def lcChar (c : Char) : Char :=
  if 'A' ≤ c && c ≤ 'Z' then Char.ofNat (c.toNat + 32) else c

/-- Lowercase a modelled JS string. -/
def lcStr (s : Str) : Str := s.map lcChar

/-- JS `String.prototype.includes`: substring occurrence test. -/
def containsSub (sub : Str) : Str → Bool
  | [] => sub.isEmpty
  | s@(_ :: rest) => sub.isPrefixOf s || containsSub sub rest

/-- Split on newline characters (JS `split('\n')`). -/
def splitNl : Str → List Str
  | [] => [[]]
  | c :: rest =>
      if c = '\n' then [] :: splitNl rest
      else
        match splitNl rest with
        | l :: ls => (c :: l) :: ls
        | [] => [[c]]

/-- Join with newline characters (JS `join('\n')`). -/
def joinNl (ls : List Str) : Str :=
  (ls.intersperse ['\n']).flatten

/-- Apply a per-line rewrite, the model of one global multiline (`gm`) regex
replacement whose pattern is anchored `^...$` and cannot match a newline. -/
def gmLineMap (f : Str → Str) (s : Str) : Str :=
  joinNl ((splitNl s).map f)

/-! ## Output chunker: `AgentManager.splitResponse` (agent-manager.ts lines 315-345)

The identical method also appears as `BaseIslamicAgent.splitResponse`
(islamic-agents.ts lines 732-762).  The source is a `while (text.length > 0)`
loop; the loop is not structurally terminating (and, as proved below, actually
diverges on some inputs), so it is embedded with explicit fuel: `none` means
the fuel was exhausted before the loop exited. -/

/-- Continuation marker `'\n\n<i>(continued...)</i>'` appended to a chunk when
more text follows (23 characters). -/
def contMark : Str := "\n\n<i>(continued...)</i>".data

/-- Reciprocal marker `'<i>(continuation)</i>\n\n'` prepended to the remaining
text (23 characters). -/
def contLead : Str := "<i>(continuation)</i>\n\n".data

/-- Break-point search of one loop iteration: `text.lastIndexOf('\n\n', 4000)`,
falling back to `text.lastIndexOf('. ', 4000)`, falling back to `4000`. -/
def splitIndexOf (text : Str) : Nat :=
  match jsLastIndexOf text ['\n', '\n'] 4000 with
  | some i => i
  | none =>
      match jsLastIndexOf text ['.', ' '] 4000 with
      | some i => i
      | none => 4000

/-- Fuelled loop of `splitResponse`; `acc` holds the emitted chunks in reverse. -/
def splitGo : Nat → Str → List Str → Option (List Str)
  | 0, _, _ => none
  | fuel + 1, text, acc =>
      if text.length = 0 then some acc.reverse
      else if text.length ≤ 4000 then some (acc.reverse ++ [text])
      else
        let chunk := text.take (splitIndexOf text)
        let rest := jsTrim (text.drop (splitIndexOf text))
        if rest.length = 0 then some ((chunk :: acc).reverse)
        else splitGo fuel (contLead ++ rest) ((chunk ++ contMark) :: acc)

/-- `AgentManager.splitResponse`, run with the given fuel. -/
def splitResponseFuel (fuel : Nat) (text : String) : Option (List String) :=
  (splitGo fuel text.data []).map (fun cs => cs.map String.mk)

/-- Modelled from the spec: the claim C5 speaks of "concatenating all chunks
returned by splitResponse after stripping the continuation markers"; this
strips the prepended reciprocal marker and the appended continuation marker
from a chunk when present. -/
def stripMarkers (c : Str) : Str :=
  let c1 := if contLead.isPrefixOf c then c.drop contLead.length else c
  if contMark.isSuffixOf c1 then c1.take (c1.length - contMark.length) else c1

/-- Shape of a terminating `splitResponse` run: each emitted chunk is the
prefix of the evolving text up to the chosen split index (at most 4000) with
the continuation marker appended, and the text evolves to the reciprocal
marker followed by the whitespace-trimmed remaining suffix. -/
inductive Reassem : Str → List Str → Prop
  | nil : Reassem [] []
  | single (t : Str) (h0 : t ≠ []) (h1 : t.length ≤ 4000) : Reassem t [t]
  | lastSplit (t : Str) (i : Nat) (h1 : 4000 < t.length) (h2 : i ≤ 4000)
      (h3 : jsTrim (t.drop i) = []) : Reassem t [t.take i]
  | moreSplit (t : Str) (i : Nat) (rest : List Str) (h1 : 4000 < t.length) (h2 : i ≤ 4000)
      (h3 : jsTrim (t.drop i) ≠ [])
      (h4 : Reassem (contLead ++ jsTrim (t.drop i)) rest) :
      Reassem t ((t.take i ++ contMark) :: rest)

/-! ## Output formatter: `AgentManager.formatResponseForTelegram` (lines 347-416)
and `AgentManager.simpleFormatting` (lines 418-431)

Each JS regex replacement is embedded as a dedicated scanner with the same
left-to-right, continue-after-match semantics.  Since `.` does not match `\n`
in JS, the lazy bold/italic bodies cannot span a newline, hence the closing
delimiter search stops at a newline. -/

/-- Escape pass `text.replace(/</g, '&lt;').replace(/>/g, '&gt;')`. -/
def escapeAngles (s : Str) : Str :=
  s.foldr (fun c acc =>
    (if c = '<' then "&lt;".data else if c = '>' then "&gt;".data else [c]) ++ acc) []

/-- Line rewrite for an anchored replacement `^M(.*?)$` ↦ `pre $1 post` where
`M` is a literal marker: rewrite a line starting with `M` to
`pre ++ rest-of-line ++ post`. -/
def markLine (m pre post l : Str) : Str :=
  if m.isPrefixOf l then pre ++ l.drop m.length ++ post else l

/-- Line rewrite for `^\d\. ` ↦ `pre` (the matched `"D. "` itself is replaced,
the remainder of the line is kept). -/
def numListLine (pre : Str) (l : Str) : Str :=
  match l with
  | d :: '.' :: ' ' :: rest => if d.isDigit then pre ++ rest else l
  | _ => l

/-- Finder for the lazy closing `**` of `/\*\*(.*?)\*\*/`: the earliest `**`
before any newline; returns the enclosed body and the text after the closer. -/
def findBB : Str → Option (Str × Str)
  | [] => none
  | c :: rest =>
      if c = '*' && rest.head? = some '*' then some ([], rest.tail)
      else if c = '\n' then none
      else (findBB rest).map (fun p => (c :: p.1, p.2))

theorem findBB_eq : ∀ {s body rest : Str}, findBB s = some (body, rest) →
    s = body ++ '*' :: '*' :: rest := by
  intro s
  induction s with
  | nil => intro body rest h; simp [findBB] at h
  | cons c tl ih =>
      intro body rest h
      rw [findBB] at h
      split at h
      · rename_i hc
        simp only [Bool.and_eq_true, decide_eq_true_eq] at hc
        obtain ⟨rfl, hh⟩ := hc
        cases tl with
        | nil => simp at hh
        | cons t0 ttl =>
            simp only [List.head?_cons, Option.some.injEq] at hh
            subst hh
            simp only [List.tail_cons, Option.some.injEq, Prod.mk.injEq] at h
            rw [← h.1, ← h.2]
            simp
      · split at h
        · simp at h
        · simp only [Option.map_eq_some'] at h
          obtain ⟨⟨b', r'⟩, hfind, heq⟩ := h
          simp only [Prod.mk.injEq] at heq
          obtain ⟨hb, hr⟩ := heq
          subst hr
          subst hb
          simpa using ih hfind

/-- Fuelled scanner for the global rewrite `/\*\*(.*?)\*\*/g` ↦ `pre $1 post`;
every recursive call shortens the text, so any fuel above the length is
enough and the zero case is unreachable from `boldRw`. -/
def boldRwF (pre post : Str) : Nat → Str → Str
  | 0, s => s
  | fuel + 1, s =>
      match s with
      | [] => []
      | c :: rest =>
          if c = '*' && rest.head? = some '*' then
            match findBB rest.tail with
            | some (body, rem) => pre ++ body ++ post ++ boldRwF pre post fuel rem
            | none => '*' :: '*' :: boldRwF pre post fuel rest.tail
          else c :: boldRwF pre post fuel rest

/-- Global rewrite `/\*\*(.*?)\*\*/g` ↦ `pre $1 post` (bold; `pre`/`post` are
`<b>`/`</b>` in the tagged formatter and `▶ `/` ◀` in the plain fallback). -/
def boldRw (pre post s : Str) : Str := boldRwF pre post (s.length + 1) s

/-- Finder for the lazy closing `*` of `/\*(.*?)\*/`: the earliest `*` before
any newline. -/
def findItal : Str → Option (Str × Str)
  | [] => none
  | c :: rest =>
      if c = '*' then some ([], rest)
      else if c = '\n' then none
      else (findItal rest).map (fun p => (c :: p.1, p.2))

theorem findItal_eq : ∀ {s body rest : Str}, findItal s = some (body, rest) →
    s = body ++ '*' :: rest := by
  intro s
  induction s with
  | nil => intro body rest h; simp [findItal] at h
  | cons c tl ih =>
      intro body rest h
      rw [findItal] at h
      split at h
      · rename_i hc
        rw [show c = '*' from by simpa using hc]
        simp only [Option.some.injEq, Prod.mk.injEq] at h
        rw [← h.1, ← h.2]
        simp
      · split at h
        · simp at h
        · simp only [Option.map_eq_some'] at h
          obtain ⟨⟨b', r'⟩, hfind, heq⟩ := h
          simp only [Prod.mk.injEq] at heq
          obtain ⟨hb, hr⟩ := heq
          subst hr
          subst hb
          simpa using ih hfind

/-- Fuelled scanner for the global rewrite `/\*(.*?)\*/g` ↦ `pre $1 post`. -/
def italRwF (pre post : Str) : Nat → Str → Str
  | 0, s => s
  | fuel + 1, s =>
      match s with
      | [] => []
      | c :: rest =>
          if c = '*' then
            match findItal rest with
            | some (body, rem) => pre ++ body ++ post ++ italRwF pre post fuel rem
            | none => '*' :: italRwF pre post fuel rest
          else c :: italRwF pre post fuel rest

/-- Global rewrite `/\*(.*?)\*/g` ↦ `pre $1 post` (italic). -/
def italRw (pre post s : Str) : Str := italRwF pre post (s.length + 1) s

/-- Position (within the maximal whitespace prefix of `s`) of the last newline
in that prefix, used by the greedy-with-backtracking match of `/\n\s*\n/`. -/
def lastNlOfWsRun : Str → Option Nat
  | [] => none
  | c :: rest =>
      if isWs c then
        match lastNlOfWsRun rest with
        | some j => some (j + 1)
        | none => if c = '\n' then some 0 else none
      else none

theorem lastNlOfWsRun_lt : ∀ {s : Str} {j : Nat}, lastNlOfWsRun s = some j → j < s.length := by
  intro s
  induction s with
  | nil => intro j h; simp [lastNlOfWsRun] at h
  | cons c tl ih =>
      intro j h
      rw [lastNlOfWsRun] at h
      split at h
      · split at h
        · rename_i j' hj'
          obtain rfl : j' + 1 = j := by simpa using h
          have := ih hj'
          simp
          omega
        · split at h
          · obtain rfl : 0 = j := by simpa using h
            simp
          · simp at h
      · simp at h

/-- Fuelled scanner for the global rewrite `/\n\s*\n/g` ↦ `'\n\n'`. -/
def collapseNlF : Nat → Str → Str
  | 0, s => s
  | fuel + 1, s =>
      match s with
      | [] => []
      | c :: rest =>
          if c = '\n' then
            match lastNlOfWsRun rest with
            | some j => '\n' :: '\n' :: collapseNlF fuel (rest.drop (j + 1))
            | none => '\n' :: collapseNlF fuel rest
          else c :: collapseNlF fuel rest

/-- Global rewrite `/\n\s*\n/g` ↦ `'\n\n'` (collapse blank-line runs). -/
def collapseNl (s : Str) : Str := collapseNlF (s.length + 1) s

/-- Global rewrite `/></g` ↦ `'> <'`. -/
def gtLtFix : Str → Str
  | '>' :: '<' :: rest => '>' :: ' ' :: '<' :: gtLtFix rest
  | c :: rest => c :: gtLtFix rest
  | [] => []

/-- Fuelled scanner for the global rewrite `/([^\s])<(b|i)>/g` ↦ `'$1 <$2>'`. -/
def spaceBeforeF : Nat → Str → Str
  | 0, s => s
  | fuel + 1, s =>
      match s with
      | c :: '<' :: t :: '>' :: rest =>
          if !isWs c && (t = 'b' || t = 'i') then
            c :: ' ' :: '<' :: t :: '>' :: spaceBeforeF fuel rest
          else c :: spaceBeforeF fuel ('<' :: t :: '>' :: rest)
      | c :: rest => c :: spaceBeforeF fuel rest
      | [] => []

/-- Global rewrite `/([^\s])<(b|i)>/g` ↦ `'$1 <$2>'` (space before tags). -/
def spaceBefore (s : Str) : Str := spaceBeforeF (s.length + 1) s

/-- Fuelled scanner for the global rewrite `/<\/(b|i)>([^\s])/g` ↦
`'</$1> $2'`. -/
def spaceAfterF : Nat → Str → Str
  | 0, s => s
  | fuel + 1, s =>
      match s with
      | '<' :: '/' :: t :: '>' :: c :: rest =>
          if (t = 'b' || t = 'i') && !isWs c then
            '<' :: '/' :: t :: '>' :: ' ' :: c :: spaceAfterF fuel rest
          else '<' :: spaceAfterF fuel ('/' :: t :: '>' :: c :: rest)
      | c :: rest => c :: spaceAfterF fuel rest
      | [] => []

/-- Global rewrite `/<\/(b|i)>([^\s])/g` ↦ `'</$1> $2'` (space after tags). -/
def spaceAfter (s : Str) : Str := spaceAfterF (s.length + 1) s

/-- Tag test after a `<`: does the rest of the text start with the remainder
`/?[bi]>` of a tag of the validation regex `/<\/?[bi]>/g`?  Returns the tag as
(isClosing, letter) together with the text after it. -/
def tagAt : Str → Option ((Bool × Char) × Str)
  | '/' :: t :: '>' :: rest' =>
      if t = 'b' || t = 'i' then some ((true, t), rest') else none
  | t :: '>' :: rest' =>
      if t = 'b' || t = 'i' then some ((false, t), rest') else none
  | _ => none

/-- Lexer for the validation regex `/<\/?[bi]>/g`: the sequence of tags, each
as (isClosing, letter); a `<` not opening a tag is skipped and the scan
resumes at the next character, as with the JS regex `lastIndex`. -/
def scanTagsF : Nat → Str → List (Bool × Char)
  | 0, _ => []
  | fuel + 1, s =>
      match s with
      | [] => []
      | c :: rest =>
          if c = '<' then
            match tagAt rest with
            | some (tag, rest') => tag :: scanTagsF fuel rest'
            | none => scanTagsF fuel rest
          else scanTagsF fuel rest

/-- The tag lexer applied with sufficient fuel. -/
def scanTags (s : Str) : List (Bool × Char) := scanTagsF (s.length + 1) s

/-- Stack discipline of the validator loop: every closing tag must match the
top opening tag, and the stack must be empty at the end. -/
def tagStackOk : List Char → List (Bool × Char) → Bool
  | stack, [] => stack.isEmpty
  | stack, (false, t) :: rest => tagStackOk (t :: stack) rest
  | stack, (true, t) :: rest =>
      match stack with
      | [] => false
      | top :: stack' => top = t && tagStackOk stack' rest

/-- Outcome of the tag-nesting validation in `formatResponseForTelegram`. -/
def tagsValid (s : Str) : Bool := tagStackOk [] (scanTags s)

/-- Markdown-to-HTML rewrite stage of `formatResponseForTelegram`
(escape, headers, bold, italic, quotes, lists, blank-line collapse, trim). -/
def formatRewrite (s : Str) : Str :=
  jsTrim (collapseNl
    (gmLineMap (markLine "- ".data "\n• ".data [])
      (gmLineMap (numListLine "\n• ".data)
        (gmLineMap (markLine "> ".data "\n<i>".data "</i>\n".data)
          (italRw "<i>".data "</i>".data
            (boldRw "<b>".data "</b>".data
              (gmLineMap (markLine "# ".data "<b>".data "</b>".data)
                (gmLineMap (markLine "## ".data "<b>".data "</b>".data)
                  (gmLineMap (markLine "### ".data "<b>".data "</b>".data)
                    (escapeAngles s))))))))))

/-- Tag-spacing stage of `formatResponseForTelegram`. -/
def formatSpaced (s : Str) : Str := spaceAfter (spaceBefore (gtLtFix s))

/-- The plain-text fallback `AgentManager.simpleFormatting`: same Markdown
subset rewritten to visual markers instead of tags; no escaping, no spacing,
no validation. -/
def simpleFormatting (text : String) : String :=
  String.mk (jsTrim (collapseNl
    (gmLineMap (markLine "- ".data "• ".data [])
      (gmLineMap (numListLine "• ".data)
        (gmLineMap (markLine "> ".data "  » ".data [])
          (italRw "• ".data " •".data
            (boldRw "▶ ".data " ◀".data
              (gmLineMap (markLine "# ".data "▶ ".data [])
                (gmLineMap (markLine "## ".data "▶ ".data [])
                  (gmLineMap (markLine "### ".data "▶ ".data [])
                    text.data))))))))))

/-- The formatter `AgentManager.formatResponseForTelegram`: rewrite, space,
then validate tag nesting; on validation failure fall back to
`simpleFormatting` applied to the original text. -/
def formatResponseForTelegram (text : String) : String :=
  let formatted := formatSpaced (formatRewrite text.data)
  if tagsValid formatted then String.mk formatted else simpleFormatting text

/-! ## Mention detection and stripping: `AgentManager.isBotMentioned` (lines
248-281) and `AgentManager.removeBotMention` (lines 283-313)

The `botUsername` field is initialised to `''` and both username branches are
guarded by `if (this.botUsername)`, which is falsy for the empty string, so in
the modelled state only the "tok ayah" alias logic runs. -/

/-- The eight alias spelling variants, in source order. -/
def aliasVariations : List Str :=
  ["tok ayah", "tokayah", "tok ayoh", "tokayoh", "tok aya", "tokaya", "tokayahh",
    "tok ayahh"].map String.data

/-- `AgentManager.isBotMentioned`: case-insensitive substring test against the
alias variants. -/
def isBotMentioned (text : String) : Bool :=
  aliasVariations.any fun v => containsSub v (lcStr text.data)

/-- JS regex word character (`\w` is `[A-Za-z0-9_]`), used by `\b`. -/
def isWordChar (c : Char) : Bool :=
  ('a' ≤ c && c ≤ 'z') || ('A' ≤ c && c ≤ 'Z') || ('0' ≤ c && c ≤ '9') || c = '_'

/-- Word boundary before a position whose character is a word character (all
alias alternatives begin with `t`). -/
def bdryBefore : Option Char → Bool
  | none => true
  | some p => !isWordChar p

/-- Word boundary after a matched fragment ending in a word character. -/
def bdryAfter : Str → Bool
  | [] => true
  | c :: _ => !isWordChar c

/-- Try the alternation `(tok ayah|tokayah|...)\b` at the current position in
declaration order (the regex engine backtracks into later alternatives when
the trailing boundary fails); returns the length of the first alternative that
matches case-insensitively and is followed by a word boundary. -/
def tryAlts : List Str → Str → Option Nat
  | [], _ => none
  | alt :: alts, s =>
      if alt.isPrefixOf (lcStr s) && bdryAfter (s.drop alt.length) then some alt.length
      else tryAlts alts s

/-- Length of the greedy `[,\s]*` run after the matched alias. -/
def commaWsLen (s : Str) : Nat := (s.takeWhile fun c => c = ',' || isWs c).length

/-- Global replace of `/\b(tok ayah|...)\b[,\s]*/gi` with `''`: a left-to-right
scan that tracks the previous character for the leading word boundary and
resumes after each match (the JS engine likewise resumes at `lastIndex`). -/
def aliasGoF : Nat → Option Char → Str → Str
  | 0, _, s => s
  | fuel + 1, prev, s =>
      match s with
      | [] => []
      | c :: rest =>
          match (if bdryBefore prev then tryAlts aliasVariations (c :: rest) else none) with
          | some (n + 1) =>
              aliasGoF fuel
                ((c :: rest).take (n + 1 + commaWsLen ((c :: rest).drop (n + 1)))).getLast?
                ((c :: rest).drop (n + 1 + commaWsLen ((c :: rest).drop (n + 1))))
          | _ => c :: aliasGoF fuel (some c) rest

/-- The alias-stripping pass of `removeBotMention`. -/
def aliasStrip (s : Str) : Str := aliasGoF (s.length + 1) none s

/-- Character class of the cleanup regex literal `/^[,\\s]+/`: inside a regex
literal `\\` is an escaped literal backslash, so the class is comma,
backslash, and the letter `s` — not comma-plus-whitespace. -/
def cleanupClass (c : Char) : Bool := c = ',' || c = '\\' || c = 's'

/-- `AgentManager.removeBotMention` in the `botUsername = ''` state: strip
alias occurrences, strip the leading `[,\\s]+` run, then `trim()`. -/
def removeBotMention (text : String) : String :=
  String.mk (jsTrim ((aliasStrip text.data).dropWhile cleanupClass))

/-! ## Trivial-interaction matcher: `AgentManager.isSimpleInteraction`
(agent-manager.ts lines 597-735) -/

/-- Time-of-day greeting table, in `Object.entries` (insertion) order. -/
def timeGreetingsTable : List (String × List String) :=
  [("morning", ["good morning", "morning", "selamat pagi", "pagi"]),
   ("afternoon", ["good afternoon", "afternoon", "selamat tengahari", "tengahari"]),
   ("evening", ["good evening", "evening", "selamat petang", "petang"]),
   ("night", ["good night", "night", "selamat malam", "malam"])]

/-- Reply template for a time-of-day greeting. -/
def timeGreetingReply (timeOfDay : String) : String :=
  "Waalaikumussalam! " ++
    (if timeOfDay = "night" then "Good night!" else "How can I help you today?")

/-- Basic greetings and common phrases. -/
def greetingsList : List String :=
  ["hi", "hello", "hey", "assalamualaikum", "salam",
   "apa khabar", "apa kabar", "apa macam",
   "sihat?", "sihat ke", "sihat tak",
   "macam mana", "cemana", "camne",
   "hai", "helo", "oi", "weh"]

/-- Thanks phrases. -/
def thanksList : List String :=
  ["thank", "thanks", "terima kasih", "tq", "tenkiu",
   "tq ye", "thank you", "thanks ye", "terima kasih ye"]

/-- Exact-match test/ping phrases. -/
def testMessages : List String := ["test", "testing", "check", "cuba", "try"]

/-- Identity / introduction request patterns. -/
def introPatterns : List String :=
  ["who are you", "who r u", "who are u", "who r you",
   "siapa kamu", "siapa anda", "siapa awak",
   "intro", "introduce", "perkenal", "kenalkan",
   "intro sikit", "cerita sikit", "tell me about yourself",
   "what is your name", "apa nama", "nama apa",
   "what are you", "apa kamu", "apa awak"]

/-- Capability / help question patterns. -/
def capabilityPatterns : List String :=
  ["what can you do", "what do you do", "apa you boleh buat",
   "how to use", "macam mana nak guna", "cara guna",
   "help", "tolong", "bantuan", "command", "arahan",
   "how does this work", "how do you work",
   "what are your functions", "apa fungsi"]

/-- Liveness / status-check patterns. -/
def statusChecks : List String :=
  ["are you there", "you there", "ada tak", "ada ke",
   "you ok", "ok tak", "working", "can you hear",
   "masih ada", "masih hidup", "tok ayah ada", "tok ayah?"]

/-- Canned reply for generic greetings. -/
def greetingReply : String :=
  "Waalaikumussalam! Alhamdulillah, I'm doing well. How can I help you today?"

/-- Canned reply for thanks. -/
def thanksReply : String :=
  "You're welcome! Feel free to ask if you have any questions."

/-- Canned reply for test messages. -/
def testReply : String := "Yes, I'm here and working properly. How can I assist you?"

/-- Canned introduction reply. -/
def introReply : String :=
  "Assalamualaikum! I am Tok Ayah, an Islamic knowledge assistant that specializes in Malaysian Islamic context. I can help you with:\n\n• Questions about Islamic rulings (fatwa)\n• Understanding different mazhab perspectives\n• Information about JAKIM guidelines\n• Malaysian Islamic practices and customs\n• Comprehensive analysis of Islamic topics\n\nFeel free to ask me any questions about Islamic matters, and I'll do my best to help you understand them from various authentic perspectives."

/-- Canned capability reply. -/
def capabilityReply : String :=
  "I can help you in several ways:\n\n1. Direct commands:\n/fatwa - Get fatwa rulings\n/mazhab - Learn about different mazhab views\n/jakim - Get JAKIM guidelines\n/malaysianfatwa - Access Malaysian fatwa decisions\n/ibadah - Learn about Islamic practices\n\n2. Natural conversations:\nJust mention \"tok ayah\" in your message and ask your question naturally in English or Malay.\n\nFor example:\n• \"tok ayah, apa hukum...\"\n• \"tok ayah, what is the ruling on...\"\n• \"tok ayah, boleh terangkan tentang...\"\n\nI'll analyze your question and provide a comprehensive response considering various Islamic perspectives."

/-- Canned status reply. -/
def statusReply : String := "Yes, I'm here and ready to help! What would you like to know?"

/-- Tail of the loosened identity regex `/\bwho\s+(?:are|r)\s*(?:you|u)\b/`
after `who\s+` has been consumed: `(?:are|r)\s*(?:you|u)\b`.  The alternatives
have distinct first characters and the whitespace runs are maximal, so the
matcher is deterministic at each position. -/
def whoYou (r3 : Str) : Bool :=
  if ("you".data).isPrefixOf (r3.dropWhile isWs) then bdryAfter ((r3.dropWhile isWs).drop 3)
  else if ("u".data).isPrefixOf (r3.dropWhile isWs) then bdryAfter ((r3.dropWhile isWs).drop 1)
  else false

/-- Continuation of the identity regex after `who`. -/
def whoTail (r1 : Str) : Bool :=
  (r1.takeWhile isWs).length ≠ 0 &&
    (if ("are".data).isPrefixOf (r1.dropWhile isWs) then whoYou ((r1.dropWhile isWs).drop 3)
     else if ("r".data).isPrefixOf (r1.dropWhile isWs) then whoYou ((r1.dropWhile isWs).drop 1)
     else false)

/-- Match of the identity regex at one position. -/
def whoAt (prev : Option Char) (s : Str) : Bool :=
  bdryBefore prev && ("who".data).isPrefixOf s && whoTail (s.drop 3)

/-- Test of `lowerText.match(/\bwho\s+(?:are|r)\s*(?:you|u)\b/)` as a scan over
all positions. -/
def whoScan (prev : Option Char) : Str → Bool
  | [] => false
  | s@(c :: rest) => whoAt prev s || whoScan (some c) rest

/-- `AgentManager.isSimpleInteraction`: the canned-reply matcher, checked in
source order; `none` means no category matched. -/
def isSimpleInteraction (text : String) : Option String :=
  let lowerText := jsTrim (lcStr text.data)
  match timeGreetingsTable.find? (fun p => p.2.any fun g => containsSub g.data lowerText) with
  | some p => some (timeGreetingReply p.1)
  | none =>
      if greetingsList.any (fun g => containsSub g.data lowerText) then some greetingReply
      else if thanksList.any (fun t => containsSub t.data lowerText) then some thanksReply
      else if testMessages.any (fun t => lowerText == t.data) then some testReply
      else if introPatterns.any (fun p =>
          lowerText == p.data || containsSub p.data lowerText ||
            (("who are".data).isPrefixOf p.data && whoScan none lowerText)) then
        some introReply
      else if capabilityPatterns.any (fun p => containsSub p.data lowerText) then
        some capabilityReply
      else if statusChecks.any (fun p => containsSub p.data lowerText) then some statusReply
      else none

/-! ## Agents (islamic-agents.ts)

One record per concrete agent class; `threshold` is the `responseThreshold`
from the configuration built in the `AgentManager` constructor (0.7, and 0.3
for the `OpinionAgent`). -/

/-- Profile of one agent class: keyword list, topic list, domain system
prompt, and the configured response threshold. -/
structure IslamicAgent where
  keywords : List String
  topics : List String
  systemPrompt : String
  threshold : ℚ

/-- `FatwaAgent` (islamic-agents.ts lines 765-826). -/
def fatwaAgent : IslamicAgent where
  keywords :=
    ["fatwa", "ruling", "halal", "haram", "permissible", "forbidden",
     "islamic law", "shariah", "syariah", "hukum", "dalil",
     "quran", "hadith", "sunnah", "islamic ruling"]
  topics :=
    ["General Islamic rulings", "Malaysian Islamic context", "Sharia compliance",
     "Islamic guidance", "Religious verdicts", "Islamic principles"]
  systemPrompt :=
    "You are a knowledgeable Islamic scholar well-versed in Malaysian Islamic context.\nYour role is to provide accurate Islamic guidance while:\n- Primarily referencing Shafi'i mazhab rulings\n- Considering Malaysian context and local customs\n- Citing relevant Quran verses and Hadith (always in italics)\n- Mentioning relevant Malaysian fatwa when applicable\n- Being respectful and clear in explanations\n- Acknowledging when a question needs official fatwa ruling\n\nFormat your responses using these rules:\n1. Use ### for section headers\n2. Use ** for bold text (important terms, rulings, conclusions)\n3. Use * for italic text (quotes, Arabic terms)\n4. Use > for Quran verses and Hadith\n5. Use - or 1. for lists\n6. Structure your response with clear sections:\n   - Main ruling or answer\n   - Evidence (Quran, Hadith, Scholarly opinions)\n   - Malaysian context\n   - Conclusion"
  threshold := 0.7

/-- `MazhabAgent` (lines 828-887). -/
def mazhabAgent : IslamicAgent where
  keywords :=
    ["mazhab", "shafi'i", "hanafi", "maliki", "hanbali",
     "school of thought", "imam shafi'i", "fiqh", "usul fiqh",
     "comparative fiqh", "ikhtilaf", "difference of opinion"]
  topics :=
    ["Shafi'i school of thought", "Comparative Islamic jurisprudence",
     "Mazhab differences", "Fiqh rulings", "Islamic legal methodology"]
  systemPrompt :=
    "You are an expert in Shafi'i mazhab, the predominant school of thought in Malaysia.\nYour role is to:\n- Explain Shafi'i rulings on various matters\n- Compare with other mazhabs when relevant\n- Provide evidence from authenticated sources\n- Consider Malaysian context in explanations\n- Highlight differences in rulings between mazhabs when applicable\n\nFormat your responses using these rules:\n1. Use ### for section headers\n2. Use ** for bold text (important terms, rulings, conclusions)\n3. Use * for italic text (quotes, Arabic terms)\n4. Use > for Quran verses and Hadith\n5. Use - or 1. for lists\n6. Structure your response with clear sections:\n   - Main ruling or answer\n   - Evidence (Quran, Hadith, Scholarly opinions)\n   - Malaysian context\n   - Conclusion"
  threshold := 0.7

/-- `JakimAgent` (lines 889-948). -/
def jakimAgent : IslamicAgent where
  keywords :=
    ["jakim", "halal certification", "malaysian islamic development",
     "jabatan kemajuan islam malaysia", "halal logo", "halal status",
     "islamic administration", "halal certificate", "halal requirements"]
  topics :=
    ["JAKIM administration", "Halal certification", "Malaysian Islamic regulations",
     "Official Islamic guidelines", "Halal compliance", "Islamic development in Malaysia"]
  systemPrompt :=
    "You are a JAKIM (Jabatan Kemajuan Islam Malaysia) specialist.\nYour role is to:\n- Provide information about JAKIM guidelines and regulations\n- Explain halal certification processes\n- Address questions about Malaysian Islamic administration\n- Reference official JAKIM statements and documents\n- Guide users to relevant JAKIM resources and services\n\nFormat your responses using these rules:\n1. Use ### for section headers\n2. Use ** for bold text (important terms, rulings, conclusions)\n3. Use * for italic text (quotes, Arabic terms)\n4. Use > for Quran verses and Hadith\n5. Use - or 1. for lists\n6. Structure your response with clear sections:\n   - Main guideline or answer\n   - Official references\n   - Practical steps\n   - Additional resources"
  threshold := 0.7

/-- `MalaysianFatwaAgent` (lines 951-1010). -/
def malaysianFatwaAgent : IslamicAgent where
  keywords :=
    ["malaysian fatwa", "state fatwa", "national fatwa council",
     "majlis fatwa", "mufti", "malaysian islamic ruling",
     "state islamic authority", "fatwa committee"]
  topics :=
    ["Malaysian fatwa rulings", "State-specific Islamic rulings",
     "National Fatwa Council decisions", "Malaysian Islamic legal opinions",
     "State Mufti declarations"]
  systemPrompt :=
    "You are an expert in Malaysian Islamic fatwa.\nYour role is to:\n- Reference decisions by the National Fatwa Council\n- Consider state-specific fatwa rulings\n- Explain the context and reasoning behind fatwa decisions\n- Highlight differences between state fatwa when applicable\n- Guide users on finding official fatwa resources\n\nFormat your responses using these rules:\n1. Use ### for section headers\n2. Use ** for bold text (important terms, rulings, conclusions)\n3. Use * for italic text (quotes, Arabic terms)\n4. Use > for Quran verses and Hadith\n5. Use - or 1. for lists\n6. Structure your response with clear sections:\n   - Main fatwa ruling\n   - Supporting evidence\n   - State variations\n   - Practical implementation"
  threshold := 0.7

/-- `IbadhahAgent` (lines 1012-1071). -/
def ibadhahAgent : IslamicAgent where
  keywords :=
    ["ibadah", "worship", "prayer", "solat", "puasa", "fasting",
     "zakat", "hajj", "umrah", "malaysian customs", "adat",
     "local practices", "cultural islam", "traditional practices"]
  topics :=
    ["Islamic worship practices", "Malaysian Muslim customs",
     "Local religious traditions", "Cultural Islamic practices",
     "Religious rituals in Malaysia"]
  systemPrompt :=
    "You are an expert in Malaysian Islamic customs and practices.\nYour role is to:\n- Address questions about local Islamic practices\n- Explain the permissibility of Malaysian customs\n- Reference relevant fatwa on cultural practices\n- Consider both Islamic principles and local context\n- Guide on proper conduct of Islamic practices in Malaysian setting\n\nFormat your responses using these rules:\n1. Use ### for section headers\n2. Use ** for bold text (important terms, rulings, conclusions)\n3. Use * for italic text (quotes, Arabic terms)\n4. Use > for Quran verses and Hadith\n5. Use - or 1. for lists\n6. Structure your response with clear sections:\n   - Main practice explanation\n   - Islamic basis\n   - Local customs\n   - Proper implementation"
  threshold := 0.7

/-- `OpinionAgent` (lines 1073-1257); its configuration overrides the
threshold to 0.3. -/
def opinionAgent : IslamicAgent where
  keywords :=
    ["opinion", "view", "perspective", "think", "consider",
     "analysis", "evaluate", "assessment", "stance", "position",
     "comprehensive", "overall", "complete", "thorough",
     "pendapat", "pandangan", "fikir", "rasa", "bagaimana",
     "macam mana", "apa kata", "berkenaan", "tentang", "pasal",
     "mengenai", "berkaitan", "fikiran", "pertimbangan", "pendirian",
     "hukum", "dalil", "fatwa"]
  topics :=
    ["Islamic opinions", "Comprehensive analysis", "Multiple perspectives",
     "Balanced view", "Thorough evaluation",
     "Pandangan Islam", "Analisis komprehensif", "Pelbagai perspektif",
     "Pandangan seimbang", "Penilaian menyeluruh"]
  systemPrompt :=
    "You are an expert Islamic scholar tasked with synthesizing multiple perspectives into a comprehensive opinion.\nYour role is to:\n- Analyze and combine different Islamic viewpoints\n- Consider fatwa rulings, mazhab differences, and local context\n- Highlight areas of agreement and disagreement\n- Provide a balanced and well-reasoned conclusion\n- Acknowledge complexity when present\n- Maintain respect for differing opinions\n\nWhen synthesizing the perspectives:\n- Give equal consideration to all viewpoints\n- Identify common threads and principles\n- Note any regional or contextual factors specific to Malaysia\n- Provide practical guidance for implementation\n- Reference relevant Quran verses and Hadith when applicable\n- Acknowledge areas where further scholarly consultation may be needed\n\nRespond in the same language as the question (Malay or English).\nFor Malay questions, use appropriate Islamic terminology in Malay.\n\nFormat your responses using these rules:\n1. Use ### for section headers\n2. Use ** for bold text (important terms, rulings, conclusions)\n3. Use * for italic text (quotes, Arabic terms)\n4. Use > for Quran verses and Hadith\n5. Use - or 1. for lists\n6. Structure your response with clear sections:\n   ### Summary of Perspectives\n   [Brief overview of all viewpoints]\n\n   ### Key Points of Agreement\n   [Areas where all or most perspectives align]\n\n   ### Important Considerations\n   [Critical factors and nuances to consider]\n\n   ### Malaysian Context\n   [Specific relevance to Malaysian Muslims]\n\n   ### Practical Implementation\n   [How to apply this guidance in daily life]\n\n   ### Comprehensive Conclusion\n   [Final synthesized opinion with key recommendations]"
  threshold := 0.3

/-- The five specialized agents, in construction order (`specializedAgents` in
the `AgentManager` constructor; also the `otherAgents` passed to the
`OpinionAgent`). -/
def specializedAgents : List IslamicAgent :=
  [fatwaAgent, mazhabAgent, jakimAgent, malaysianFatwaAgent, ibadhahAgent]

/-- The agent map of the `AgentManager`, in `Map` insertion order. -/
def managerAgents : List (String × IslamicAgent) :=
  [("fatwa", fatwaAgent), ("mazhab", mazhabAgent), ("jakim", jakimAgent),
   ("malaysianfatwa", malaysianFatwaAgent), ("ibadah", ibadhahAgent),
   ("opinion", opinionAgent)]

/-! ## The generation boundary and `shouldRespond` -/

/-- The DeepSeek chat-completion boundary: (system prompt, user message) to
completion text or transport error. -/
abbrev Oracle := String → String → Except Unit String

/-- JS numbers closed under `parseFloat`: NaN, signed infinity, or an exact
rational. -/
inductive JNum
  | nan
  | inf (neg : Bool)
  | fin (q : ℚ)
deriving DecidableEq

/-- Numeric value of a digit run. -/
def digitsToNat (ds : Str) : Nat :=
  ds.foldl (fun n c => n * 10 + (c.toNat - '0'.toNat)) 0

/-- Exponent part of `parseFloat` (`e`/`E`, optional sign, digits; an
exponent without digits is ignored). -/
def expPart (r : Str) : ℤ :=
  let p := match r with
    | '-' :: t => ((-1 : ℤ), t)
    | '+' :: t => ((1 : ℤ), t)
    | _ => ((1 : ℤ), r)
  let ed := p.2.takeWhile Char.isDigit
  if ed = [] then 0 else p.1 * digitsToNat ed

/-- JS `parseFloat`: skip leading whitespace, optional sign, `Infinity` or
decimal digits with optional fraction and exponent; trailing garbage is
ignored; no parsable prefix gives NaN. -/
def parseFloatJS (str : String) : JNum :=
  let s0 := str.data.dropWhile isWs
  let sgn := match s0 with
    | '-' :: t => (true, t)
    | '+' :: t => (false, t)
    | _ => (false, s0)
  if ("Infinity".data).isPrefixOf sgn.2 then JNum.inf sgn.1
  else
    let ip := sgn.2.takeWhile Char.isDigit
    let s1 := sgn.2.dropWhile Char.isDigit
    let fp := match s1 with
      | '.' :: t => t.takeWhile Char.isDigit
      | _ => []
    let s2 := match s1 with
      | '.' :: t => t.dropWhile Char.isDigit
      | _ => s1
    if ip = [] && fp = [] then JNum.nan
    else
      let mant : ℚ := (digitsToNat ip : ℚ) + (digitsToNat fp : ℚ) / (10 : ℚ) ^ fp.length
      JNum.fin ((if sgn.1 then (-1 : ℚ) else 1) * mant * (10 : ℚ) ^ expPart s2)

/-- JS `x >= t` for a parsed float `x` (false for NaN). -/
def jnumGe (x : JNum) (t : ℚ) : Bool :=
  match x with
  | .nan => false
  | .inf neg => !neg
  | .fin v => t ≤ v

/-- JS `a || b` for strings (empty string is falsy). -/
def jsOrEmpty (a b : String) : String := if a = "" then b else a

/-- The relevance value computed inside `BaseIslamicAgent.shouldRespond`:
`parseFloat(response || '0')`. -/
def relevanceScoreOf (response : String) : JNum :=
  parseFloatJS (jsOrEmpty response "0")

/-- Relevance-call system prompt of `BaseIslamicAgent.shouldRespond`, built
from the agent's topic and keyword lists. -/
def relevancePrompt (a : IslamicAgent) : String :=
  "You are an expert in determining if a question matches specific Islamic topics.\nGiven the following specialization:\nTopics: " ++
    String.intercalate ", " a.topics ++ "\nKeywords: " ++
    String.intercalate ", " a.keywords ++
    "\n\nRespond with a number between 0 and 1 indicating how relevant the question is to these topics.\nOnly respond with the number, nothing else."

/-- Values of the dynamically-typed `relevanceScore` seen by the router
(JS `typeof` distinguishes numbers from booleans). -/
inductive JSVal
  | num (x : ℚ)
  | bool (b : Bool)
deriving DecidableEq

/-- `BaseIslamicAgent.shouldRespond`: one relevance generation call, parse the
reply, compare against the threshold; a thrown transport error is caught and
converted to `false`.  The result is a boolean. -/
def shouldRespondBase (a : IslamicAgent) (o : Oracle) (q : String) : JSVal :=
  match o (relevancePrompt a) q with
  | .ok response => .bool (jnumGe (relevanceScoreOf response) a.threshold)
  | .error _ => .bool false

/-- `OpinionAgent.shouldRespond` override: unconditionally true. -/
def opinionShouldRespond (_q : String) : JSVal := .bool true

/-- Dynamic dispatch of `shouldRespond` over the manager's agents: the
instance registered under the key `"opinion"` is the `OpinionAgent` with its
override; all others use the base implementation. -/
def agentShouldRespond (name : String) (a : IslamicAgent) (o : Oracle) (q : String) : JSVal :=
  if name = "opinion" then opinionShouldRespond q else shouldRespondBase a o q

/-! ## Answer generation -/

/-- Apology returned when a generation call throws. -/
def apologyError : String :=
  "I apologize, but I encountered an error while processing your question. Please try again later."

/-- Fallback of `BaseIslamicAgent.generateResponse` for an empty completion. -/
def apologyEmptyBase : String :=
  "I apologize, but I could not generate a response at this time."

/-- Fallback of `OpinionAgent.generateResponse` for an empty completion. -/
def apologyEmptyOpinion : String :=
  "I apologize, but I could not generate a comprehensive opinion at this time."

/-- `BaseIslamicAgent.generateResponse`: one generation call with the agent's
domain system prompt; empty completion degrades to a fixed apology, a thrown
error is caught and converted to another fixed apology. -/
def generateResponseBase (a : IslamicAgent) (o : Oracle) (q : String) : String :=
  match o a.systemPrompt q with
  | .ok r => if r = "" then apologyEmptyBase else r
  | .error _ => apologyError

/-- `OpinionAgent.getAgentType` label table. -/
def agentTypeLabels : List String :=
  ["Fatwa Perspective", "Mazhab Analysis", "JAKIM Guidelines",
   "Malaysian Fatwa Council View", "Islamic Practice Context"]

/-- `OpinionAgent.getAgentType`: label by index, defaulting beyond the table. -/
def getAgentType (i : Nat) : String := agentTypeLabels.getD i "Additional Perspective"

/-- The labelled specialist answers collected by the fan-out in
`OpinionAgent.generateResponse` (results are recombined by agent index). -/
def opinionAnswers (o : Oracle) (q : String) : List (String × String) :=
  specializedAgents.enum.map fun p => (getAgentType p.1, generateResponseBase p.2 o q)

/-- Per-answer cleanup in the fan-out: drop `^###.*$` header lines, then drop
blank lines. -/
def cleanPerspective (r : String) : Str :=
  joinNl ((((splitNl r.data).map fun l => if ("###".data).isPrefixOf l then [] else l).filter
    fun l => (jsTrim l).length ≠ 0))

/-- The combined "perspectives" document. -/
def perspectivesDoc (o : Oracle) (q : String) : String :=
  String.intercalate "\n\n"
    ((opinionAnswers o q).map fun p => p.1 ++ ":\n" ++ String.mk (cleanPerspective p.2))

/-- User content of the synthesis call. -/
def synthUserContent (q perspectives : String) : String :=
  "Analyze this question from multiple Islamic perspectives and provide a comprehensive response:\n\nQuestion: " ++
    q ++ "\n\nHere are the different perspectives to consider:\n\n" ++ perspectives ++
    "\n\nPlease synthesize these viewpoints into a well-structured response that addresses all aspects of the question."

/-- `OpinionAgent.generateResponse`: fan out to the five specialists, combine
the cleaned labelled answers, issue the synthesis call; empty completion and
thrown errors degrade to fixed apologies. -/
def opinionGenerateResponse (o : Oracle) (q : String) : String :=
  match o opinionAgent.systemPrompt (synthUserContent q (perspectivesDoc o q)) with
  | .ok r => if r = "" then apologyEmptyOpinion else r
  | .error _ => apologyError

/-! ## Router: the `message:text` handler in the `AgentManager` constructor
(agent-manager.ts lines 100-238), for a non-reply message from an allowed
group -/

/-- Reply action taken by the handler. -/
inductive Reply
  | noReply
  | promptForQuestion
  | canned (s : String)
  | formatted (response : String)
  | fallbackRephrase
deriving DecidableEq

/-- The specialist-selection loop (lines 200-212): iterate over the agent map
skipping `"opinion"`, keeping the agent whose `shouldRespond` result passes
`typeof relevanceScore === 'number' && relevanceScore > highestRelevance`
(initial `highestRelevance` is 0). -/
def findBestAgent (o : Oracle) (q : String) : Option (String × IslamicAgent) :=
  (managerAgents.foldl
    (fun st p =>
      if p.1 = "opinion" then st
      else
        match agentShouldRespond p.1 p.2 o q with
        | .num x => if st.2 < x then (some p, x) else st
        | .bool _ => st)
    ((none : Option (String × IslamicAgent)), (0 : ℚ))).1

/-- The text-message handler for a non-reply, non-command message from an
allowed group, together with the `generateResponse` calls it issues (pairs of
agent-map key and question). -/
def handleTextMessage (o : Oracle) (text : String) : Reply × List (String × String) :=
  if ("/".data).isPrefixOf text.data then (.noReply, [])
  else if isBotMentioned text then
    if jsTrim (removeBotMention text).data = [] then (.promptForQuestion, [])
    else
      match isSimpleInteraction (removeBotMention text) with
      | some resp => (.canned resp, [])
      | none =>
          if containsSub ("getkeywords".data) (lcStr text.data) then
            (.formatted (opinionGenerateResponse o (removeBotMention text)),
              [("opinion", removeBotMention text)])
          else
            match findBestAgent o (removeBotMention text) with
            | some p => (.formatted (generateResponseBase p.2 o (removeBotMention text)),
                [(p.1, removeBotMention text)])
            | none => (.fallbackRephrase, [])
  else (.noReply, [])

/-- A test double of the API client: the generation call fails exactly for the
JAKIM agent's system prompt and succeeds with a fixed completion otherwise
(used to exercise the partial-failure path of the synthesizer fan-out). -/
def failingOracle : Oracle := fun sys _ =>
  if sys = jakimAgent.systemPrompt then Except.error () else Except.ok "jawapan"

/-! # Theorems

## Chunker lemmas -/

theorem splitGo_succ (fuel : Nat) (text : Str) (acc : List Str) :
    splitGo (fuel + 1) text acc =
      if text.length = 0 then some acc.reverse
      else if text.length ≤ 4000 then some (acc.reverse ++ [text])
      else if (jsTrim (text.drop (splitIndexOf text))).length = 0 then
        some ((text.take (splitIndexOf text) :: acc).reverse)
      else
        splitGo fuel (contLead ++ jsTrim (text.drop (splitIndexOf text)))
          ((text.take (splitIndexOf text) ++ contMark) :: acc) := rfl

theorem lastIdxGo_bound (sub : Str) (lim : Nat) :
    ∀ (s : Str) (i : Nat) (best : Option Nat),
      (∀ j, best = some j → j ≤ lim) → ∀ j, lastIdxGo sub lim s i best = some j → j ≤ lim := by
  intro s
  induction s with
  | nil => intro i best hb j h; exact hb j (by simpa [lastIdxGo] using h)
  | cons c rest ih =>
      intro i best hb j h
      rw [lastIdxGo] at h
      refine ih (i + 1) _ ?_ j h
      intro j' hj'
      split at hj'
      · rename_i hcond
        simp only [Bool.and_eq_true, decide_eq_true_eq] at hcond
        obtain rfl : i = j' := Option.some.inj hj'
        exact hcond.1
      · exact hb j' hj'

theorem jsLastIndexOf_bound {s sub : Str} {lim j : Nat}
    (h : jsLastIndexOf s sub lim = some j) : j ≤ lim :=
  lastIdxGo_bound sub lim s 0 none (fun _ hj => by simp at hj) j h

theorem splitIndexOf_le (text : Str) : splitIndexOf text ≤ 4000 := by
  unfold splitIndexOf
  split
  · rename_i i h; exact jsLastIndexOf_bound h
  · split
    · rename_i i h; exact jsLastIndexOf_bound h
    · exact Nat.le_refl 4000

theorem length_contMark : contMark.length = 23 := rfl

theorem length_contLead : contLead.length = 23 := rfl

theorem splitGo_chunk_bound :
    ∀ (fuel : Nat) (text : Str) (acc cs : List Str),
      splitGo fuel text acc = some cs →
      (∀ c ∈ acc, c.length ≤ 4023) → ∀ c ∈ cs, c.length ≤ 4023 := by
  intro fuel
  induction fuel with
  | zero => intro text acc cs h; simp [splitGo] at h
  | succ n ih =>
      intro text acc cs h hacc c hc
      rw [splitGo_succ] at h
      split at h
      · injection h with h'
        subst h'
        exact hacc c (List.mem_reverse.mp hc)
      · split at h
        · rename_i h0 h1
          injection h with h'
          subst h'
          rcases List.mem_append.mp hc with hmem | hmem
          · exact hacc c (List.mem_reverse.mp hmem)
          · obtain rfl : c = text := by simpa using hmem
            omega
        · split at h
          · injection h with h'
            subst h'
            rw [List.reverse_cons] at hc
            rcases List.mem_append.mp hc with hmem | hmem
            · exact hacc c (List.mem_reverse.mp hmem)
            · obtain rfl : c = text.take (splitIndexOf text) := by simpa using hmem
              have hle := splitIndexOf_le text
              simp only [List.length_take]
              omega
          · refine ih _ _ _ h ?_ c hc
            intro c' hc'
            rcases List.mem_cons.mp hc' with rfl | hmem
            · have hle := splitIndexOf_le text
              simp only [List.length_append, List.length_take, length_contMark]
              omega
            · exact hacc c' hmem

/-- C4 (amended): every chunk in the ordered sequence returned by a
terminating run of `splitResponse` is at most 4023 characters long: the split
index is bounded by the fixed 4000-character budget, and the appended
continuation marker adds at most 23 characters on top of that budget (the
budget does not include the marker). -/
theorem C4_chunk_length_amended :
    ∀ (fuel : Nat) (s : String) (cs : List String),
      splitResponseFuel fuel s = some cs → ∀ c ∈ cs, c.length ≤ 4023 := by
  intro fuel s cs h c hc
  unfold splitResponseFuel at h
  cases hgo : splitGo fuel s.data [] with
  | none => rw [hgo] at h; simp at h
  | some cs0 =>
      rw [hgo] at h
      simp only [Option.map_some', Option.some.injEq] at h
      subst h
      obtain ⟨l, hl, rfl⟩ := List.mem_map.mp hc
      exact splitGo_chunk_bound fuel s.data [] cs0 hgo (by simp) l hl

/-- Witness for C4 (amended): the theorem applied to a concrete run. -/
theorem C4_chunk_length_amended_w : ("salam" : String).length ≤ 4023 :=
  C4_chunk_length_amended 1 "salam" ["salam"] rfl "salam" (by simp)

theorem lastIdxGo_rep_append (d : Char) (tl : Str) (c : Char) (h : (d == c) = false)
    (lim : Nat) (ys : Str) :
    ∀ (n i : Nat) (best : Option Nat),
      lastIdxGo (d :: tl) lim (List.replicate n c ++ ys) i best =
        lastIdxGo (d :: tl) lim ys (i + n) best := by
  intro n
  induction n with
  | zero => intro i best; simp
  | succ m ihm =>
      intro i best
      rw [List.replicate_succ, List.cons_append, lastIdxGo]
      rw [show ((d :: tl).isPrefixOf (c :: (List.replicate m c ++ ys))) = false from by
        simp [List.isPrefixOf, h]]
      rw [ihm]
      rw [show (if (decide (i ≤ lim) && false) = true then some i else best) = best from by
        simp]
      congr 1
      omega

theorem lastIdxGo_rep (d : Char) (tl : Str) (c : Char) (h : (d == c) = false)
    (lim n i : Nat) (best : Option Nat) :
    lastIdxGo (d :: tl) lim (List.replicate n c) i best = best := by
  have h2 := lastIdxGo_rep_append d tl c h lim [] n i best
  simpa [lastIdxGo] using h2

theorem isPrefixOf_cons_ne (d : Char) (tl : Str) (c : Char) (h : (d == c) = false)
    (rest : Str) : (d :: tl).isPrefixOf (c :: rest) = false := by
  simp [List.isPrefixOf, h]

theorem isPrefixOf_self_append : ∀ (l ys : Str), l.isPrefixOf (l ++ ys) = true := by
  intro l ys
  induction l with
  | nil => simp [List.isPrefixOf]
  | cons c tl ih => simp [List.isPrefixOf, ih]

theorem dropWhile_rep (p : Char → Bool) (c : Char) (h : p c = false) (n : Nat) :
    (List.replicate n c).dropWhile p = List.replicate n c := by
  cases n with
  | zero => rfl
  | succ m => rw [List.replicate_succ, List.dropWhile_cons]; simp [h, List.replicate_succ]

theorem jsTrim_rep (c : Char) (h : isWs c = false) (n : Nat) :
    jsTrim (List.replicate n c) = List.replicate n c := by
  unfold jsTrim
  rw [dropWhile_rep _ _ h, List.reverse_replicate, dropWhile_rep _ _ h, List.reverse_replicate]

theorem jsTrim_nl2_rep (c : Char) (h : isWs c = false) (n : Nat) :
    jsTrim ('\n' :: '\n' :: List.replicate n c) = List.replicate n c := by
  unfold jsTrim
  rw [List.dropWhile_cons, List.dropWhile_cons]
  simp only [show isWs '\n' = true from rfl, if_true]
  rw [dropWhile_rep _ _ h, List.reverse_replicate, dropWhile_rep _ _ h, List.reverse_replicate]

theorem splitIndexOf_rep_a : splitIndexOf (List.replicate 4100 'a') = 4000 := by
  unfold splitIndexOf jsLastIndexOf
  rw [lastIdxGo_rep '\n' ['\n'] 'a' (by decide) 4000 4100 0 none,
    lastIdxGo_rep '.' [' '] 'a' (by decide) 4000 4100 0 none]

theorem splitGo_rep4100 :
    splitGo 2 (List.replicate 4100 'a') [] =
      some [List.replicate 4000 'a' ++ contMark, contLead ++ List.replicate 100 'a'] := by
  have h2 : (List.replicate 4100 'a' : Str).take 4000 = List.replicate 4000 'a' := by
    rw [List.take_replicate]
    norm_num
  have h3 : (List.replicate 4100 'a' : Str).drop 4000 = List.replicate 100 'a' := by
    rw [List.drop_replicate]
  have h4 : jsTrim (List.replicate 100 'a') = List.replicate 100 'a' :=
    jsTrim_rep 'a' (by decide) 100
  rw [splitGo_succ,
    if_neg (by simp only [List.length_replicate]; omega),
    if_neg (by simp only [List.length_replicate]; omega),
    splitIndexOf_rep_a, h2, h3, h4,
    if_neg (by simp only [List.length_replicate]; omega)]
  rw [splitGo_succ,
    if_neg (by simp only [List.length_append, length_contLead, List.length_replicate]; omega),
    if_pos (by simp only [List.length_append, length_contLead, List.length_replicate]; omega)]
  rfl

/-- C4 counterexample: the claim as stated (every chunk at most 4000
characters including the appended continuation marker) is false: the
4100-character input with no break points yields a first chunk of 4023
characters. -/
theorem C4_counterexample :
    splitResponseFuel 2 (String.mk (List.replicate 4100 'a')) =
        some [String.mk (List.replicate 4000 'a' ++ contMark),
          String.mk (contLead ++ List.replicate 100 'a')] ∧
      (String.mk (List.replicate 4000 'a' ++ contMark)).length = 4023 ∧
      ¬ (String.mk (List.replicate 4000 'a' ++ contMark)).length ≤ 4000 := by
  refine ⟨?_, ?_, ?_⟩
  · unfold splitResponseFuel
    rw [show (String.mk (List.replicate 4100 'a')).data = List.replicate 4100 'a' from rfl]
    rw [splitGo_rep4100]
    rfl
  · show (List.replicate 4000 'a' ++ contMark).length = 4023
    simp only [List.length_append, List.length_replicate, length_contMark]
  · show ¬ (List.replicate 4000 'a' ++ contMark).length ≤ 4000
    simp only [List.length_append, List.length_replicate, length_contMark]
    omega

theorem splitGo_reassem :
    ∀ (fuel : Nat) (text : Str) (acc cs : List Str),
      splitGo fuel text acc = some cs →
      ∃ tail, cs = acc.reverse ++ tail ∧ Reassem text tail := by
  intro fuel
  induction fuel with
  | zero => intro text acc cs h; simp [splitGo] at h
  | succ n ih =>
      intro text acc cs h
      rw [splitGo_succ] at h
      split at h
      · rename_i h0
        injection h with h'
        subst h'
        refine ⟨[], by simp, ?_⟩
        rw [List.length_eq_zero.mp h0]
        exact Reassem.nil
      · split at h
        · rename_i h0 h1
          injection h with h'
          subst h'
          exact ⟨[text], rfl,
            Reassem.single text (fun he => h0 (by rw [he]; rfl)) h1⟩
        · split at h
          · rename_i h0 h1 h2
            injection h with h'
            subst h'
            refine ⟨[text.take (splitIndexOf text)], by simp, ?_⟩
            exact Reassem.lastSplit text (splitIndexOf text) (by omega)
              (splitIndexOf_le text) (List.length_eq_zero.mp h2)
          · rename_i h0 h1 h2
            obtain ⟨tail, htail, hre⟩ := ih _ _ _ h
            refine ⟨(text.take (splitIndexOf text) ++ contMark) :: tail, ?_, ?_⟩
            · rw [htail]; simp
            · exact Reassem.moreSplit text (splitIndexOf text) tail (by omega)
                (splitIndexOf_le text) (fun he => h2 (by rw [he]; rfl)) hre

theorem Reassem_ne_nil : ∀ {t : Str} {cs : List Str}, Reassem t cs → t ≠ [] → cs ≠ [] := by
  intro t cs h
  cases h <;> simp_all

/-- C5 (amended): for every terminating run of `splitResponse`, the chunk
sequence decomposes the input per `Reassem`: each chunk is the evolving
text's prefix up to the split index with the continuation marker appended,
and the evolving text is the reciprocal marker plus the whitespace-trimmed
remaining suffix — so the only characters not reproduced by concatenating the
chunk cores are whitespace trimmed at chunk boundaries (exact verbatim
reassembly fails, see the counterexample).  Every non-empty input that
terminates produces at least one chunk, and every non-empty input within the
4000-character budget produces exactly one chunk equal to the input. -/
theorem C5_roundtrip_amended :
    ∀ (fuel : Nat) (t : String) (cs : List String),
      splitResponseFuel fuel t = some cs →
      (∃ tail, cs = tail.map String.mk ∧ Reassem t.data tail) ∧
        (t ≠ "" → cs ≠ []) ∧ (t ≠ "" → t.length ≤ 4000 → cs = [t]) := by
  intro fuel t cs h
  unfold splitResponseFuel at h
  cases hgo : splitGo fuel t.data [] with
  | none => rw [hgo] at h; simp at h
  | some cs0 =>
      rw [hgo] at h
      simp only [Option.map_some', Option.some.injEq] at h
      subst h
      obtain ⟨tl0, htl, hre⟩ := splitGo_reassem fuel t.data [] cs0 hgo
      simp only [List.reverse_nil, List.nil_append] at htl
      have hre0 : Reassem t.data cs0 := by rw [htl]; exact hre
      refine ⟨⟨cs0, rfl, hre0⟩, ?_, ?_⟩
      · intro hne hmap
        have hd : t.data ≠ [] := fun hd => hne (String.ext (hd.trans rfl))
        exact Reassem_ne_nil hre0 hd (by simpa using hmap)
      · intro hne hlen
        have hlen' : t.data.length ≤ 4000 := hlen
        have hd : ¬ t.data.length = 0 := fun h0 =>
          hne (String.ext ((List.length_eq_zero.mp h0).trans rfl))
        cases fuel with
        | zero => simp [splitGo] at hgo
        | succ m =>
            rw [splitGo_succ] at hgo
            rw [if_neg hd, if_pos hlen'] at hgo
            injection hgo with h'
            rw [← h']
            rfl

/-- Witness for C5 (amended): the theorem applied to a concrete run. -/
theorem C5_roundtrip_amended_w :
    (∃ tail, ["apa khabar"] = tail.map String.mk ∧ Reassem ("apa khabar" : String).data tail) ∧
      (("apa khabar" : String) ≠ "" → (["apa khabar"] : List String) ≠ []) ∧
      (("apa khabar" : String) ≠ "" → ("apa khabar" : String).length ≤ 4000 →
        (["apa khabar"] : List String) = ["apa khabar"]) :=
  C5_roundtrip_amended 1 "apa khabar" ["apa khabar"] rfl

theorem splitIndexOf_ab :
    splitIndexOf (List.replicate 3000 'a' ++ '\n' :: '\n' :: List.replicate 1500 'b') = 3000 := by
  unfold splitIndexOf jsLastIndexOf
  rw [lastIdxGo_rep_append '\n' ['\n'] 'a' (by decide) 4000 _ 3000 0 none]
  rw [lastIdxGo]
  rw [show ((0 : Nat) + 3000 ≤ 4000 &&
      (['\n', '\n'] : Str).isPrefixOf ('\n' :: '\n' :: List.replicate 1500 'b')) = true from by
    simp [List.isPrefixOf]]
  rw [lastIdxGo]
  rw [show (['\n', '\n'] : Str).isPrefixOf ('\n' :: List.replicate 1500 'b') = false from by
    rw [show (1500 : Nat) = 1499 + 1 from rfl, List.replicate_succ]
    simp [List.isPrefixOf]]
  rw [lastIdxGo_rep '\n' ['\n'] 'b' (by decide)]
  simp

theorem splitGo_ab :
    splitGo 2 (List.replicate 3000 'a' ++ '\n' :: '\n' :: List.replicate 1500 'b') [] =
      some [List.replicate 3000 'a' ++ contMark, contLead ++ List.replicate 1500 'b'] := by
  have h2 : (List.replicate 3000 'a' ++ '\n' :: '\n' :: List.replicate 1500 'b' : Str).take 3000 =
      List.replicate 3000 'a' :=
    List.take_left' (by simp only [List.length_replicate])
  have h3 : (List.replicate 3000 'a' ++ '\n' :: '\n' :: List.replicate 1500 'b' : Str).drop 3000 =
      '\n' :: '\n' :: List.replicate 1500 'b' :=
    List.drop_left' (by simp only [List.length_replicate])
  rw [splitGo_succ,
    if_neg (by simp only [List.length_append, List.length_cons, List.length_replicate]; omega),
    if_neg (by simp only [List.length_append, List.length_cons, List.length_replicate]; omega),
    splitIndexOf_ab, h2, h3, jsTrim_nl2_rep 'b' (by decide) 1500,
    if_neg (by simp only [List.length_replicate]; omega)]
  rw [splitGo_succ,
    if_neg (by simp only [List.length_append, length_contLead, List.length_replicate]; omega),
    if_pos (by simp only [List.length_append, length_contLead, List.length_replicate]; omega)]
  rfl

theorem stripMarkers_chunk1 :
    stripMarkers (List.replicate 3000 'a' ++ contMark) = List.replicate 3000 'a' := by
  unfold stripMarkers
  rw [show contLead.isPrefixOf (List.replicate 3000 'a' ++ contMark) = false from by
    rw [show (3000 : Nat) = 2999 + 1 from rfl, List.replicate_succ, List.cons_append]
    rw [show contLead = '<' :: "i>(continuation)</i>\n\n".data from rfl]
    exact isPrefixOf_cons_ne '<' _ 'a' (by decide) _]
  simp only [Bool.false_eq_true, if_false]
  rw [show contMark.isSuffixOf (List.replicate 3000 'a' ++ contMark) = true from by
    rw [List.isSuffixOf, List.reverse_append]
    exact isPrefixOf_self_append _ _]
  simp only [if_true]
  rw [show (List.replicate 3000 'a' ++ contMark : Str).length - contMark.length = 3000 from by
    simp only [List.length_append, List.length_replicate, length_contMark]]
  exact List.take_left' (by simp only [List.length_replicate])

theorem stripMarkers_chunk2 :
    stripMarkers (contLead ++ List.replicate 1500 'b') = List.replicate 1500 'b' := by
  unfold stripMarkers
  rw [isPrefixOf_self_append]
  simp only [if_true]
  rw [show (contLead ++ List.replicate 1500 'b' : Str).drop contLead.length =
      List.replicate 1500 'b' from List.drop_left contLead _]
  rw [show contMark.isSuffixOf (List.replicate 1500 'b') = false from by
    rw [List.isSuffixOf, List.reverse_replicate]
    rw [show contMark.reverse = '>' :: "i/<)...deunitnoc(>i<\n\n".data from by rfl]
    rw [show (1500 : Nat) = 1499 + 1 from rfl, List.replicate_succ]
    exact isPrefixOf_cons_ne '>' _ 'b' (by decide) _]
  simp

/-- C5 counterexample: concatenating the chunks after stripping the
continuation markers does not reproduce the original text: the blank-line
boundary `"\n\n"` at the split point is trimmed away and lost. -/
theorem C5_counterexample :
    ((splitGo 2 (List.replicate 3000 'a' ++ '\n' :: '\n' :: List.replicate 1500 'b') []).map
        fun cs => (cs.map stripMarkers).flatten) =
      some (List.replicate 3000 'a' ++ List.replicate 1500 'b') ∧
      List.replicate 3000 'a' ++ List.replicate 1500 'b' ≠
        List.replicate 3000 'a' ++ '\n' :: '\n' :: List.replicate 1500 'b' := by
  constructor
  · rw [splitGo_ab]
    simp only [Option.map_some', List.map_cons, List.map_nil, stripMarkers_chunk1,
      stripMarkers_chunk2, List.flatten_cons, List.flatten_nil, List.append_nil]
  · intro hcontra
    have hlen := congrArg List.length hcontra
    simp only [List.length_append, List.length_cons, List.length_replicate] at hlen
    omega

theorem contLead_chars :
    contLead = '<' :: 'i' :: '>' :: '(' :: 'c' :: 'o' :: 'n' :: 't' :: 'i' :: 'n' :: 'u' ::
      'a' :: 't' :: 'i' :: 'o' :: 'n' :: ')' :: '<' :: '/' :: 'i' :: '>' :: '\n' :: '\n' ::
      [] := rfl

theorem lastIdxGo_contLead_rep (n : Nat) :
    lastIdxGo ['\n', '\n'] 4000 (contLead ++ List.replicate n 'a') 0 none = some 21 := by
  rw [contLead_chars]
  simp only [List.cons_append, List.nil_append]
  simp only [lastIdxGo, List.isPrefixOf]
  norm_num
  cases n with
  | zero => rfl
  | succ m =>
      rw [List.replicate_succ]
      simp only [lastIdxGo, List.isPrefixOf]
      norm_num
      exact lastIdxGo_rep '\n' ['\n'] 'a' (by decide) 4000 m 24 (some 21)

theorem splitIndexOf_contLead_rep (n : Nat) :
    splitIndexOf (contLead ++ List.replicate n 'a') = 21 := by
  unfold splitIndexOf jsLastIndexOf
  rw [lastIdxGo_contLead_rep n]

theorem splitGo_text1_none (fuel : Nat) :
    ∀ acc, splitGo fuel (contLead ++ List.replicate 4098 'a') acc = none := by
  induction fuel with
  | zero => intro acc; rfl
  | succ n ih =>
      intro acc
      rw [splitGo_succ]
      have hlen : (contLead ++ List.replicate 4098 'a' : Str).length = 4121 := by
        simp only [List.length_append, length_contLead, List.length_replicate]
      rw [if_neg (by rw [hlen]; omega), if_neg (by rw [hlen]; omega)]
      rw [splitIndexOf_contLead_rep]
      rw [show (contLead ++ List.replicate 4098 'a' : Str).drop 21 =
          '\n' :: '\n' :: List.replicate 4098 'a' from by rw [contLead_chars]; rfl]
      rw [show (contLead ++ List.replicate 4098 'a' : Str).take 21 =
          "<i>(continuation)</i>".data from by rw [contLead_chars]; rfl]
      rw [jsTrim_nl2_rep 'a' (by decide) 4098]
      rw [if_neg (by simp only [List.length_replicate]; omega)]
      exact ih _

/-- C10 (code bug): `splitResponse` is not total: on the input consisting of a
blank line followed by 4098 letters (no further break points), the loop
reaches the fixed point `'<i>(continuation)</i>\n\n' ++ 'a'*4098` — the split
index is the `'\n\n'` inside the marker it has itself prepended, the emitted
chunk is the marker text, and the remaining text reproduces itself exactly —
so the loop never terminates: every finite fuel is exhausted. -/
theorem C10_divergence :
    ∀ fuel : Nat,
      splitResponseFuel fuel (String.mk ('\n' :: '\n' :: List.replicate 4098 'a')) = none := by
  intro fuel
  unfold splitResponseFuel
  rw [show (String.mk ('\n' :: '\n' :: List.replicate 4098 'a')).data =
      '\n' :: '\n' :: List.replicate 4098 'a' from rfl]
  cases fuel with
  | zero => rfl
  | succ n =>
      rw [splitGo_succ]
      have hlen : ('\n' :: '\n' :: List.replicate 4098 'a' : Str).length = 4100 := by
        simp only [List.length_cons, List.length_replicate]
      rw [if_neg (by rw [hlen]; omega), if_neg (by rw [hlen]; omega)]
      have hidx : splitIndexOf ('\n' :: '\n' :: List.replicate 4098 'a') = 0 := by
        unfold splitIndexOf jsLastIndexOf
        rw [lastIdxGo]
        rw [show (if (decide ((0 : Nat) ≤ 4000) &&
              (['\n', '\n'] : Str).isPrefixOf ('\n' :: '\n' :: List.replicate 4098 'a')) = true
              then some 0 else (none : Option Nat)) = some 0 from by
          rw [show (4098 : Nat) = 4097 + 1 from rfl, List.replicate_succ]
          rfl]
        rw [lastIdxGo]
        rw [show (if (decide ((1 : Nat) ≤ 4000) &&
              (['\n', '\n'] : Str).isPrefixOf ('\n' :: List.replicate 4098 'a')) = true
              then some 1 else some 0) = some 0 from by
          rw [show (4098 : Nat) = 4097 + 1 from rfl, List.replicate_succ]
          rfl]
        rw [lastIdxGo_rep '\n' ['\n'] 'a' (by decide)]
      rw [hidx]
      rw [List.take_zero, List.drop_zero]
      rw [jsTrim_nl2_rep 'a' (by decide) 4098]
      rw [if_neg (by simp only [List.length_replicate]; omega)]
      rw [List.nil_append]
      rw [splitGo_text1_none]
      rfl

/-! ## Formatter safety (C3) -/

set_option maxHeartbeats 2000000 in
/-- C3: for every input, the formatter's output either passes the
stack-discipline tag validator (every opening tag closed by a matching tag,
empty stack at the end) or is exactly the plain-text fallback rendering; in
particular the spec's unbalanced-markup example yields validator-passing
output. -/
theorem C3_format_valid_or_fallback :
    (∀ s : String, tagsValid (formatResponseForTelegram s).data = true ∨
        formatResponseForTelegram s = simpleFormatting s) ∧
      tagsValid (formatResponseForTelegram "**bold without close").data = true := by
  constructor
  · intro s
    have key : ∀ F : Str, formatSpaced (formatRewrite s.data) = F →
        tagsValid (formatResponseForTelegram s).data = true ∨
          formatResponseForTelegram s = simpleFormatting s := by
      intro F hF
      have hfmt : formatResponseForTelegram s =
          if tagsValid F then String.mk F else simpleFormatting s := by
        show (if tagsValid (formatSpaced (formatRewrite s.data))
          then String.mk (formatSpaced (formatRewrite s.data))
          else simpleFormatting s) = if tagsValid F then String.mk F else simpleFormatting s
        rw [hF]
      cases hb : tagsValid F with
      | true =>
          left
          rw [hfmt, if_pos hb]
          exact hb
      | false =>
          right
          rw [hfmt, if_neg (by rw [hb]; exact Bool.false_ne_true)]
    exact key _ rfl
  · decide

/-! ## Mention stripping is not idempotent (C9) -/

set_option maxHeartbeats 2000000 in
/-- C9 (code bug): `removeBotMention` is not idempotent even when no alias
occurrence remains in its first result: the cleanup regex literal
`/^[,\\s]+/` strips comma, backslash and the letter `s` (not whitespace), so
the first pass turns `", solat"` into `"solat"` and the second pass strips
the leading `s`, yielding `"olat"`. -/
theorem C9_not_idempotent :
    removeBotMention ", solat" = "solat" ∧
      aliasStrip ("solat" : String).data = ("solat" : String).data ∧
      removeBotMention (removeBotMention ", solat") = "olat" ∧
      removeBotMention (removeBotMention ", solat") ≠ removeBotMention ", solat" := by
  refine ⟨by decide, by decide, by decide, by decide⟩

/-! ## The synthesizer as catch-all (C8) -/

/-- C8: in the constructed agent map the synthesizer's threshold (0.3) is
strictly lower than every specialist's threshold (0.7), and its
`shouldRespond` override returns true for every message. -/
theorem C8_opinion_catch_all :
    managerAgents.map (fun p => (p.1, p.2.threshold)) =
        [("fatwa", 0.7), ("mazhab", 0.7), ("jakim", 0.7), ("malaysianfatwa", 0.7),
          ("ibadah", 0.7), ("opinion", 0.3)] ∧
      (specializedAgents.all fun a => decide (opinionAgent.threshold < a.threshold)) = true ∧
      ∀ q : String, opinionShouldRespond q = JSVal.bool true := by
  refine ⟨rfl, ?_, fun _ => rfl⟩
  show (specializedAgents.all fun a => decide (opinionAgent.threshold < a.threshold)) = true
  simp only [specializedAgents, List.all_cons, List.all_nil, Bool.and_eq_true,
    decide_eq_true_eq, and_true]
  refine ⟨?_, ?_, ?_, ?_, ?_⟩ <;>
    norm_num [opinionAgent, fatwaAgent, mazhabAgent, jakimAgent, malaysianFatwaAgent,
      ibadhahAgent]

/-! ## Relevance scoring (C6) -/

/-- C6 counterexample: the relevance value computed by `shouldRespond`
(`parseFloat(response || '0')`) is not confined to the interval [0,1]: the
reply `"5"` parses to 5. -/
theorem C6_counterexample :
    relevanceScoreOf "5" = JNum.fin 5 ∧ ¬ ((0 : ℚ) ≤ 5 ∧ (5 : ℚ) ≤ 1) := by
  constructor
  · show parseFloatJS "5" = JNum.fin 5
    rw [show parseFloatJS "5" = JNum.fin ((if false = true then (-1 : ℚ) else 1) *
        (((5 : ℕ) : ℚ) + ((0 : ℕ) : ℚ) / (10 : ℚ) ^ (0 : ℕ)) * (10 : ℚ) ^ (0 : ℤ)) from rfl]
    congr 1
    norm_num
  · norm_num

theorem shouldRespondBase_bool (a : IslamicAgent) (o : Oracle) (q : String) :
    ∃ b, shouldRespondBase a o q = .bool b := by
  unfold shouldRespondBase
  cases o (relevancePrompt a) q with
  | ok r => exact ⟨_, rfl⟩
  | error e => exact ⟨false, rfl⟩

/-- C6 (amended): `shouldRespond` never throws and always yields a boolean
qualification decision, never a score: it is false on transport error (fail
closed) and false whenever the reply does not parse as a number (the NaN
comparison fails); the parsed value itself is compared unclamped against the
threshold and is not confined to [0,1] (see the counterexample). -/
theorem C6_score_amended :
    ∀ (a : IslamicAgent) (o : Oracle) (q : String),
      (∃ b, shouldRespondBase a o q = .bool b) ∧
      (∀ e, o (relevancePrompt a) q = .error e → shouldRespondBase a o q = .bool false) ∧
      (∀ r, o (relevancePrompt a) q = .ok r → relevanceScoreOf r = JNum.nan →
        shouldRespondBase a o q = .bool false) := by
  intro a o q
  refine ⟨shouldRespondBase_bool a o q, ?_, ?_⟩
  · intro e h
    unfold shouldRespondBase
    rw [h]
  · intro r hr hnan
    unfold shouldRespondBase
    rw [hr]
    show JSVal.bool (jnumGe (relevanceScoreOf r) a.threshold) = JSVal.bool false
    rw [hnan]
    rfl

/-- Witness for C6 (amended): an unparseable reply does not qualify. -/
theorem C6_score_amended_w :
    shouldRespondBase fatwaAgent (fun _ _ => .ok "not a number") "soalan" = .bool false :=
  (C6_score_amended fatwaAgent (fun _ _ => .ok "not a number") "soalan").2.2
    "not a number" rfl (by decide)

/-! ## Fallback formatter character provenance (C7)

`simpleFormatting` inserts only the marker strings `"▶ "`, `" ◀"`, `"• "`,
`" •"`, `"  » "` and newlines, none of which contains `<`, so an input free of
literal `<` yields an output free of `<`; the tag lexer then finds no tag at
all and the stack validator accepts trivially. -/

theorem splitNl_mem : ∀ {s l : Str}, l ∈ splitNl s → ∀ {c : Char}, c ∈ l → c ∈ s := by
  intro s
  induction s with
  | nil =>
      intro l hl c hc
      simp only [splitNl, List.mem_singleton] at hl
      subst hl
      simp at hc
  | cons a rest ih =>
      intro l hl c hc
      rw [splitNl] at hl
      split at hl
      · rcases List.mem_cons.mp hl with rfl | hl2
        · simp at hc
        · exact List.mem_cons_of_mem _ (ih hl2 hc)
      · cases h0 : splitNl rest with
        | nil =>
            rw [h0] at hl
            have hl2 : l ∈ [[a]] := hl
            rw [List.mem_singleton] at hl2
            subst hl2
            rw [List.mem_singleton] at hc
            subst hc
            exact List.mem_cons_self _ _
        | cons l0 ls =>
            rw [h0] at hl
            have hl2 : l ∈ (a :: l0) :: ls := hl
            rcases List.mem_cons.mp hl2 with rfl | hmem
            · rcases List.mem_cons.mp hc with rfl | hc2
              · exact List.mem_cons_self _ _
              · refine List.mem_cons_of_mem _ (ih ?_ hc2)
                rw [h0]
                exact List.mem_cons_self _ _
            · refine List.mem_cons_of_mem _ (ih ?_ hc)
              rw [h0]
              exact List.mem_cons_of_mem _ hmem

theorem joinNl_nil : joinNl [] = [] := rfl

theorem joinNl_single (x : Str) : joinNl [x] = x := by
  simp [joinNl, List.intersperse]

theorem joinNl_cons2 (x y : Str) (tl : List Str) :
    joinNl (x :: y :: tl) = x ++ '\n' :: joinNl (y :: tl) := by
  simp [joinNl, List.intersperse]

theorem mem_joinNl (c : Char) : ∀ (ls : List Str), c ∈ joinNl ls → c = '\n' ∨ ∃ l ∈ ls, c ∈ l
  | [], h => by
      rw [joinNl_nil] at h
      simp at h
  | [x], h => by
      rw [joinNl_single] at h
      exact Or.inr ⟨x, List.mem_singleton_self x, h⟩
  | x :: y :: tl, h => by
      rw [joinNl_cons2] at h
      rcases List.mem_append.mp h with hx | h2
      · exact Or.inr ⟨x, List.mem_cons_self _ _, hx⟩
      · rcases List.mem_cons.mp h2 with rfl | h3
        · exact Or.inl rfl
        · rcases mem_joinNl c (y :: tl) h3 with hnl | ⟨l, hl, hc⟩
          · exact Or.inl hnl
          · exact Or.inr ⟨l, List.mem_cons_of_mem _ hl, hc⟩

theorem gmLineMap_no_lt {f : Str → Str} (hf : ∀ l : Str, '<' ∉ l → '<' ∉ f l)
    {s : Str} (hs : '<' ∉ s) : '<' ∉ gmLineMap f s := by
  intro h
  rcases mem_joinNl _ _ h with hnl | ⟨l2, hl2, hc⟩
  · exact absurd hnl (by decide)
  · rcases List.mem_map.mp hl2 with ⟨l, hl, rfl⟩
    exact hf l (fun hd => hs (splitNl_mem hl hd)) hc

theorem markLine_no_lt {m pre post : Str} (hpre : '<' ∉ pre) (hpost : '<' ∉ post)
    {l : Str} (hl : '<' ∉ l) : '<' ∉ markLine m pre post l := by
  unfold markLine
  split
  · intro h
    rcases List.mem_append.mp h with h1 | h2
    · rcases List.mem_append.mp h1 with h3 | h4
      · exact hpre h3
      · exact hl (List.mem_of_mem_drop h4)
    · exact hpost h2
  · exact hl

theorem numListLine_no_lt {pre : Str} (hpre : '<' ∉ pre) {l : Str} (hl : '<' ∉ l) :
    '<' ∉ numListLine pre l := by
  unfold numListLine
  split
  · split
    · intro h
      rcases List.mem_append.mp h with h1 | h2
      · exact hpre h1
      · exact hl (by simp [h2])
    · exact hl
  · exact hl

theorem boldRwF_no_lt {pre post : Str} (hpre : '<' ∉ pre) (hpost : '<' ∉ post) :
    ∀ (fuel : Nat) {s : Str}, '<' ∉ s → '<' ∉ boldRwF pre post fuel s := by
  intro fuel
  induction fuel with
  | zero => intro s hs; exact hs
  | succ n ih =>
      intro s hs
      cases s with
      | nil => exact hs
      | cons c rest =>
          rw [boldRwF]
          split
          · rename_i hcond
            simp only [Bool.and_eq_true, decide_eq_true_eq] at hcond
            obtain ⟨rfl, hh⟩ := hcond
            cases rest with
            | nil => simp at hh
            | cons r0 rtl =>
                simp only [List.head?_cons, Option.some.injEq] at hh
                subst hh
                have hrtl : '<' ∉ rtl := fun hm =>
                  hs (List.mem_cons_of_mem _ (List.mem_cons_of_mem _ hm))
                cases hfb : findBB (('*' :: rtl).tail) with
                | some p =>
                    obtain ⟨body, rem⟩ := p
                    have hsub : rtl = body ++ '*' :: '*' :: rem := findBB_eq (by simpa using hfb)
                    show '<' ∉ pre ++ body ++ post ++ boldRwF pre post n rem
                    intro h
                    rcases List.mem_append.mp h with h1 | h
                    · rcases List.mem_append.mp h1 with h2 | h3
                      · rcases List.mem_append.mp h2 with h4 | h5
                        · exact hpre h4
                        · exact hrtl (by rw [hsub]; exact List.mem_append.mpr (Or.inl h5))
                      · exact hpost h3
                    · refine ih ?_ h
                      intro hm
                      exact hrtl (by
                        rw [hsub]
                        exact List.mem_append.mpr (Or.inr (by simp [hm])))
                | none =>
                    show '<' ∉ '*' :: '*' :: boldRwF pre post n (('*' :: rtl).tail)
                    intro h
                    rcases List.mem_cons.mp h with h1 | h
                    · exact absurd h1 (by decide)
                    rcases List.mem_cons.mp h with h1 | h
                    · exact absurd h1 (by decide)
                    · exact ih (by simpa using hrtl) h
          · intro h
            rcases List.mem_cons.mp h with h1 | h
            · exact hs (List.mem_cons.mpr (Or.inl h1))
            · exact ih (fun hm => hs (List.mem_cons_of_mem _ hm)) h

theorem italRwF_no_lt {pre post : Str} (hpre : '<' ∉ pre) (hpost : '<' ∉ post) :
    ∀ (fuel : Nat) {s : Str}, '<' ∉ s → '<' ∉ italRwF pre post fuel s := by
  intro fuel
  induction fuel with
  | zero => intro s hs; exact hs
  | succ n ih =>
      intro s hs
      cases s with
      | nil => exact hs
      | cons c rest =>
          rw [italRwF]
          have hrest : '<' ∉ rest := fun hm => hs (List.mem_cons_of_mem _ hm)
          split
          · cases hfi : findItal rest with
            | some p =>
                obtain ⟨body, rem⟩ := p
                have hsub : rest = body ++ '*' :: rem := findItal_eq hfi
                show '<' ∉ pre ++ body ++ post ++ italRwF pre post n rem
                intro h
                rcases List.mem_append.mp h with h1 | h
                · rcases List.mem_append.mp h1 with h2 | h3
                  · rcases List.mem_append.mp h2 with h4 | h5
                    · exact hpre h4
                    · exact hrest (by rw [hsub]; exact List.mem_append.mpr (Or.inl h5))
                  · exact hpost h3
                · refine ih ?_ h
                  intro hm
                  exact hrest (by
                    rw [hsub]
                    exact List.mem_append.mpr (Or.inr (by simp [hm])))
            | none =>
                show '<' ∉ '*' :: italRwF pre post n rest
                intro h
                rcases List.mem_cons.mp h with h1 | h
                · exact absurd h1 (by decide)
                · exact ih hrest h
          · intro h
            rcases List.mem_cons.mp h with h1 | h
            · exact hs (List.mem_cons.mpr (Or.inl h1))
            · exact ih hrest h

theorem collapseNlF_no_lt : ∀ (fuel : Nat) {s : Str}, '<' ∉ s → '<' ∉ collapseNlF fuel s := by
  intro fuel
  induction fuel with
  | zero => intro s hs; exact hs
  | succ n ih =>
      intro s hs
      cases s with
      | nil => exact hs
      | cons c rest =>
          rw [collapseNlF]
          have hrest : '<' ∉ rest := fun hm => hs (List.mem_cons_of_mem _ hm)
          split
          · split
            · intro h
              rcases List.mem_cons.mp h with h1 | h
              · exact absurd h1 (by decide)
              rcases List.mem_cons.mp h with h1 | h
              · exact absurd h1 (by decide)
              · exact ih (fun hm => hrest (List.mem_of_mem_drop hm)) h
            · intro h
              rcases List.mem_cons.mp h with h1 | h
              · exact absurd h1 (by decide)
              · exact ih hrest h
          · intro h
            rcases List.mem_cons.mp h with h1 | h
            · exact hs (List.mem_cons.mpr (Or.inl h1))
            · exact ih hrest h

theorem jsTrim_no_lt {s : Str} (hs : '<' ∉ s) : '<' ∉ jsTrim s := by
  intro h
  unfold jsTrim at h
  rw [List.mem_reverse] at h
  have h2 := (List.dropWhile_sublist _).subset h
  rw [List.mem_reverse] at h2
  exact hs ((List.dropWhile_sublist _).subset h2)

theorem collapseNl_no_lt {s : Str} (hs : '<' ∉ s) : '<' ∉ collapseNl s :=
  collapseNlF_no_lt _ hs

theorem boldRw_no_lt {pre post : Str} (hpre : '<' ∉ pre) (hpost : '<' ∉ post)
    {s : Str} (hs : '<' ∉ s) : '<' ∉ boldRw pre post s :=
  boldRwF_no_lt hpre hpost _ hs

theorem italRw_no_lt {pre post : Str} (hpre : '<' ∉ pre) (hpost : '<' ∉ post)
    {s : Str} (hs : '<' ∉ s) : '<' ∉ italRw pre post s :=
  italRwF_no_lt hpre hpost _ hs

theorem data_mk (l : Str) : (String.mk l).data = l := rfl

theorem simpleFormatting_no_lt (s : String) (hs : '<' ∉ s.data) :
    '<' ∉ (simpleFormatting s).data := by
  have h8 : '<' ∉ gmLineMap (markLine "### ".data "▶ ".data []) s.data :=
    gmLineMap_no_lt (fun _ hl => markLine_no_lt (by decide) (by decide) hl) hs
  have h7 : '<' ∉ gmLineMap (markLine "## ".data "▶ ".data [])
      (gmLineMap (markLine "### ".data "▶ ".data []) s.data) :=
    gmLineMap_no_lt (fun _ hl => markLine_no_lt (by decide) (by decide) hl) h8
  have h6 : '<' ∉ gmLineMap (markLine "# ".data "▶ ".data [])
      (gmLineMap (markLine "## ".data "▶ ".data [])
        (gmLineMap (markLine "### ".data "▶ ".data []) s.data)) :=
    gmLineMap_no_lt (fun _ hl => markLine_no_lt (by decide) (by decide) hl) h7
  have h5 : '<' ∉ boldRw "▶ ".data " ◀".data
      (gmLineMap (markLine "# ".data "▶ ".data [])
        (gmLineMap (markLine "## ".data "▶ ".data [])
          (gmLineMap (markLine "### ".data "▶ ".data []) s.data))) :=
    boldRw_no_lt (by decide) (by decide) h6
  have h4 : '<' ∉ italRw "• ".data " •".data
      (boldRw "▶ ".data " ◀".data
        (gmLineMap (markLine "# ".data "▶ ".data [])
          (gmLineMap (markLine "## ".data "▶ ".data [])
            (gmLineMap (markLine "### ".data "▶ ".data []) s.data)))) :=
    italRw_no_lt (by decide) (by decide) h5
  have h3 : '<' ∉ gmLineMap (markLine "> ".data "  » ".data [])
      (italRw "• ".data " •".data
        (boldRw "▶ ".data " ◀".data
          (gmLineMap (markLine "# ".data "▶ ".data [])
            (gmLineMap (markLine "## ".data "▶ ".data [])
              (gmLineMap (markLine "### ".data "▶ ".data []) s.data))))) :=
    gmLineMap_no_lt (fun _ hl => markLine_no_lt (by decide) (by decide) hl) h4
  have h2 : '<' ∉ gmLineMap (numListLine "• ".data)
      (gmLineMap (markLine "> ".data "  » ".data [])
        (italRw "• ".data " •".data
          (boldRw "▶ ".data " ◀".data
            (gmLineMap (markLine "# ".data "▶ ".data [])
              (gmLineMap (markLine "## ".data "▶ ".data [])
                (gmLineMap (markLine "### ".data "▶ ".data []) s.data)))))) :=
    gmLineMap_no_lt (fun _ hl => numListLine_no_lt (by decide) hl) h3
  have h1 : '<' ∉ gmLineMap (markLine "- ".data "• ".data [])
      (gmLineMap (numListLine "• ".data)
        (gmLineMap (markLine "> ".data "  » ".data [])
          (italRw "• ".data " •".data
            (boldRw "▶ ".data " ◀".data
              (gmLineMap (markLine "# ".data "▶ ".data [])
                (gmLineMap (markLine "## ".data "▶ ".data [])
                  (gmLineMap (markLine "### ".data "▶ ".data []) s.data))))))) :=
    gmLineMap_no_lt (fun _ hl => markLine_no_lt (by decide) (by decide) hl) h2
  have hmk : simpleFormatting s = String.mk (jsTrim (collapseNl
      (gmLineMap (markLine "- ".data "• ".data [])
        (gmLineMap (numListLine "• ".data)
          (gmLineMap (markLine "> ".data "  » ".data [])
            (italRw "• ".data " •".data
              (boldRw "▶ ".data " ◀".data
                (gmLineMap (markLine "# ".data "▶ ".data [])
                  (gmLineMap (markLine "## ".data "▶ ".data [])
                    (gmLineMap (markLine "### ".data "▶ ".data [])
                      s.data)))))))))) := rfl
  have hdata : (simpleFormatting s).data = jsTrim (collapseNl
      (gmLineMap (markLine "- ".data "• ".data [])
        (gmLineMap (numListLine "• ".data)
          (gmLineMap (markLine "> ".data "  » ".data [])
            (italRw "• ".data " •".data
              (boldRw "▶ ".data " ◀".data
                (gmLineMap (markLine "# ".data "▶ ".data [])
                  (gmLineMap (markLine "## ".data "▶ ".data [])
                    (gmLineMap (markLine "### ".data "▶ ".data [])
                      s.data))))))))) :=
    (congrArg String.data hmk).trans (data_mk _)
  rw [hdata]
  exact jsTrim_no_lt (collapseNl_no_lt h1)

theorem scanTagsF_no_lt : ∀ (fuel : Nat) {s : Str}, '<' ∉ s → scanTagsF fuel s = [] := by
  intro fuel
  induction fuel with
  | zero => intro s _; rfl
  | succ n ih =>
      intro s hs
      cases s with
      | nil => rfl
      | cons c rest =>
          rw [scanTagsF,
            if_neg (show ¬(c = '<') from fun hc => hs (List.mem_cons.mpr (Or.inl hc.symm)))]
          exact ih (fun hm => hs (List.mem_cons_of_mem _ hm))

theorem tagsValid_of_no_lt {s : Str} (hs : '<' ∉ s) : tagsValid s = true := by
  unfold tagsValid scanTags
  rw [scanTagsF_no_lt _ hs]
  rfl

/-- C7 (amended): for every input free of literal angle brackets, the
plain-text fallback `simpleFormatting` emits no `<` at all (it inserts only
the visual markers and newlines), so its output trivially passes the
tag-nesting validator.  The unrestricted claim is refuted by the
counterexample: an input containing a literal `<b>` passes through the
fallback unchanged and fails the validator. -/
theorem C7_simple_fallback_amended :
    ∀ s : String, '<' ∉ s.data →
      '<' ∉ (simpleFormatting s).data ∧ tagsValid (simpleFormatting s).data = true := by
  intro s hs
  have h := simpleFormatting_no_lt s hs
  exact ⟨h, tagsValid_of_no_lt h⟩

/-- Witness for C7 (amended) at the spec's own example input. -/
theorem C7_simple_fallback_amended_w :
    '<' ∉ ("**bold without close" : String).data ∧
      ('<' ∉ (simpleFormatting "**bold without close").data ∧
        tagsValid (simpleFormatting "**bold without close").data = true) :=
  ⟨by decide, C7_simple_fallback_amended "**bold without close" (by decide)⟩

/-- C7 counterexample: literal markup in the input passes through the
fallback unchanged, so the fallback's output *can* be invalid transport
markup (an unmatched `<b>`). -/
theorem C7_counterexample :
    simpleFormatting "<b>" = "<b>" ∧ tagsValid (simpleFormatting "<b>").data = false := by
  constructor
  · decide
  · decide

/-! ## Router selection loop (C1) -/

theorem agentShouldRespond_bool (name : String) (a : IslamicAgent) (o : Oracle) (q : String) :
    ∃ b, agentShouldRespond name a o q = .bool b := by
  unfold agentShouldRespond
  split
  · exact ⟨true, rfl⟩
  · exact shouldRespondBase_bool a o q

theorem findBestAgent_foldl (o : Oracle) (q : String) :
    ∀ (l : List (String × IslamicAgent)) (st : Option (String × IslamicAgent) × ℚ),
      l.foldl
        (fun st p =>
          if p.1 = "opinion" then st
          else
            match agentShouldRespond p.1 p.2 o q with
            | .num x => if st.2 < x then (some p, x) else st
            | .bool _ => st)
        st = st := by
  intro l
  induction l with
  | nil => intro st; rfl
  | cons p tl ih =>
      intro st
      rw [List.foldl_cons]
      have hstep : (if p.1 = "opinion" then st
          else
            match agentShouldRespond p.1 p.2 o q with
            | .num x => if st.2 < x then (some p, x) else st
            | .bool _ => st) = st := by
        obtain ⟨b, hb⟩ := agentShouldRespond_bool p.1 p.2 o q
        rw [hb]
        split
        · rfl
        · rfl
      rw [hstep]
      exact ih st

theorem findBestAgent_none (o : Oracle) (q : String) : findBestAgent o q = none := by
  unfold findBestAgent
  rw [findBestAgent_foldl o q managerAgents ((none : Option (String × IslamicAgent)), (0 : ℚ))]

/-- C1: the specialist-selection loop of the router is dead code: its guard
`typeof relevanceScore === 'number'` can never hold because every
`shouldRespond` returns a boolean, so no specialist is ever selected and, in
particular, for the spec's own scenario input (addressed, non-trivial,
keyword "hukum" present) the handler issues no generation call at all and
replies with the fixed rephrase fallback instead of routing to the fatwa
agent. -/
theorem C1_router_dead_selection :
    ∀ o : Oracle,
      (∀ q, findBestAgent o q = none) ∧
      isBotMentioned "tok ayah, apa hukum solat jumaat" = true ∧
      removeBotMention "tok ayah, apa hukum solat jumaat" = "apa hukum solat jumaat" ∧
      isSimpleInteraction "apa hukum solat jumaat" = none ∧
      handleTextMessage o "tok ayah, apa hukum solat jumaat" = (Reply.fallbackRephrase, []) := by
  intro o
  have hq : removeBotMention "tok ayah, apa hukum solat jumaat" = "apa hukum solat jumaat" := by
    decide
  refine ⟨findBestAgent_none o, by decide, hq, by decide, ?_⟩
  unfold handleTextMessage
  rw [hq]
  rw [if_neg (show
    ¬(("/".data).isPrefixOf ("tok ayah, apa hukum solat jumaat" : String).data = true) from
      by decide)]
  rw [if_pos (show isBotMentioned "tok ayah, apa hukum solat jumaat" = true from by decide)]
  rw [if_neg (show ¬(jsTrim ("apa hukum solat jumaat" : String).data = []) from by decide)]
  rw [show isSimpleInteraction "apa hukum solat jumaat" = none from by decide]
  rw [if_neg (show
    ¬(containsSub ("getkeywords".data) (lcStr ("tok ayah, apa hukum solat jumaat" : String).data)
        = true) from by decide)]
  rw [findBestAgent_none o "apa hukum solat jumaat"]

/-! ## Synthesizer fan-out under partial failure (C2) -/

theorem generateResponseBase_error {a : IslamicAgent} {o : Oracle} {q : String}
    (h : ∃ e, o a.systemPrompt q = Except.error e) :
    generateResponseBase a o q = apologyError := by
  obtain ⟨e, he⟩ := h
  unfold generateResponseBase
  rw [he]

theorem opinionGenerateResponse_ne (o : Oracle) (q : String) :
    opinionGenerateResponse o q ≠ "" := by
  unfold opinionGenerateResponse
  cases o opinionAgent.systemPrompt (synthUserContent q (perspectivesDoc o q)) with
  | ok r =>
      show (if r = "" then apologyEmptyOpinion else r) ≠ ""
      split
      · decide
      · rename_i hne
        exact hne
  | error e =>
      show apologyError ≠ ""
      decide

/-- C2: if one specialist's generation call fails, the synthesizer's
`generateResponse` still completes with non-empty text: the fan-out always
produces all five labelled specialist answers, the failed specialist
contributing its fixed apology string instead of an exception. -/
theorem C2_synth_partial_failure :
    ∀ (o : Oracle) (q : String) (k : Nat), k < 5 →
      (∃ e, o ((specializedAgents.getD k fatwaAgent).systemPrompt) q = Except.error e) →
      (opinionAnswers o q).length = 5 ∧
      (opinionAnswers o q).getD k ("", "") = (getAgentType k, apologyError) ∧
      opinionGenerateResponse o q ≠ "" := by
  intro o q k hk hfail
  refine ⟨rfl, ?_, opinionGenerateResponse_ne o q⟩
  interval_cases k
  · have hf : ∃ e, o fatwaAgent.systemPrompt q = Except.error e := hfail
    show (getAgentType 0, generateResponseBase fatwaAgent o q) = (getAgentType 0, apologyError)
    rw [generateResponseBase_error hf]
  · have hf : ∃ e, o mazhabAgent.systemPrompt q = Except.error e := hfail
    show (getAgentType 1, generateResponseBase mazhabAgent o q) = (getAgentType 1, apologyError)
    rw [generateResponseBase_error hf]
  · have hf : ∃ e, o jakimAgent.systemPrompt q = Except.error e := hfail
    show (getAgentType 2, generateResponseBase jakimAgent o q) = (getAgentType 2, apologyError)
    rw [generateResponseBase_error hf]
  · have hf : ∃ e, o malaysianFatwaAgent.systemPrompt q = Except.error e := hfail
    show (getAgentType 3, generateResponseBase malaysianFatwaAgent o q) =
      (getAgentType 3, apologyError)
    rw [generateResponseBase_error hf]
  · have hf : ∃ e, o ibadhahAgent.systemPrompt q = Except.error e := hfail
    show (getAgentType 4, generateResponseBase ibadhahAgent o q) = (getAgentType 4, apologyError)
    rw [generateResponseBase_error hf]

set_option maxRecDepth 8000 in
/-- Witness for C2: under an API double failing exactly for the JAKIM agent's
system prompt, the fan-out degrades that one answer to the apology and the
synthesis still yields non-empty text. -/
theorem C2_synth_partial_failure_w :
    (2 < 5 ∧ ∃ e, failingOracle ((specializedAgents.getD 2 fatwaAgent).systemPrompt) "soalan" =
        Except.error e) ∧
      ((opinionAnswers failingOracle "soalan").length = 5 ∧
        (opinionAnswers failingOracle "soalan").getD 2 ("", "") =
          (getAgentType 2, apologyError) ∧
        opinionGenerateResponse failingOracle "soalan" ≠ "") :=
  ⟨⟨by decide, ⟨(), rfl⟩⟩,
    C2_synth_partial_failure failingOracle "soalan" 2 (by decide) ⟨(), rfl⟩⟩

end TelegramBot
